import Mathlib

/-!
Verification development for the DataSport normalization / upsert engine.

The definitions below are a shallow embedding of the repository's core:
  * src/core/schema.py   (SCHEMA_SQL: the ten SQLite tables, their primary
    keys, NOT NULL columns, UNIQUE constraints and foreign keys),
  * src/core/db.py       (SQLiteDB.upsert_dataframe: staging table, bulk
    UPDATE, bulk insert-where-not-exists, transactional rollback),
  * src/core/validation.py (run_fk_integrity_checks, run_sanity_checks,
    run_all_checks),
  * src/core/multi_db.py (build_multi_database_architecture, the CSV export),
  * src/core/utils.py    (slugify, the payload concatenation of stable_sha1).

SQLite values are modelled by an inductive type with an explicit null;
SQL equality (null never compares equal) is sqlEq.  Python strings in
utils.py are modelled as List Char.  Statement-level behaviour of SQLite
with PRAGMA foreign_keys = ON is modelled for the statements the engine
issues: a statement that would leave the touched table violating a
constraint fails, and the enclosing transaction (the Python connection
context manager) rolls the store back to its pre-call state.
-/

namespace DataSport

/-- A dynamically typed SQLite value: NULL, TEXT or a numeric value.
(REAL columns of the schema are only ever threaded through untouched by
the operations modelled here, so one numeric constructor suffices.) -/
inductive Value where
  | null : Value
  | text : String → Value
  | intv : Int → Value
deriving DecidableEq, Repr

/-- SQL equality as used in the engine's WHERE clauses and JOIN conditions:
NULL is never equal to anything (including NULL). -/
def sqlEq : Value → Value → Bool
  | Value.null, _ => false
  | _, Value.null => false
  | a, b => a == b

/-- A stored row: the list of values of the table's columns, in schema order. -/
abbrev Row := List Value

/-- One column of a CREATE TABLE statement: its name and whether it is
declared NOT NULL.  (In SQLite a TEXT PRIMARY KEY column without an explicit
NOT NULL does accept NULL values; the schema's PRIMARY KEY clauses are
therefore recorded separately from notNull.) -/
structure ColumnSpec where
  name : String
  notNull : Bool
deriving DecidableEq, Repr

/-- Value of column c in a stored row (columns and values are parallel lists;
a missing position reads as NULL). -/
def colVal : List ColumnSpec → Row → String → Value
  | [], _, _ => Value.null
  | _ :: _, [], _ => Value.null
  | c :: cs, v :: vs, n => if c.name = n then v else colVal cs vs n

/-- A pandas DataFrame as handed to upsert_dataframe: a column list and
same-shaped rows.  df.where(pd.notna(df), None) maps missing values to None,
i.e. to Value.null, which is the identity on this representation. -/
structure Frame where
  cols : List String
  rows : List Row
deriving DecidableEq, Repr

/-- Value of column c in a frame row (the staging table's row). -/
def frameVal : List String → Row → String → Value
  | [], _, _ => Value.null
  | _ :: _, [], _ => Value.null
  | c :: cs, v :: vs, n => if c = n then v else frameVal cs vs n

/-- The ten tables created by SCHEMA_SQL. -/
inductive TableId where
  | countries | sports | disciplines | sources | competitions
  | events | participants | results | raw_imports | sport_federations
deriving DecidableEq, Repr

/-- A FOREIGN KEY clause: child column, parent table, parent column. -/
structure ForeignKey where
  col : String
  parent : TableId
  parentCol : String
deriving DecidableEq, Repr

/-- The constraints of one CREATE TABLE statement of SCHEMA_SQL. -/
structure TableSchema where
  columns : List ColumnSpec
  pk : List String
  uniques : List (List String)
  fks : List ForeignKey
deriving DecidableEq, Repr

/-- SCHEMA_SQL of src/core/schema.py, table by table. -/
def schema : TableId → TableSchema
  | TableId.countries =>
    { columns := [⟨"country_id", false⟩, ⟨"iso2", false⟩, ⟨"iso3", false⟩,
                  ⟨"name_en", true⟩, ⟨"name_fr", false⟩],
      pk := ["country_id"], uniques := [], fks := [] }
  | TableId.sports =>
    { columns := [⟨"sport_id", false⟩, ⟨"sport_name", true⟩,
                  ⟨"sport_slug", true⟩, ⟨"created_at_utc", true⟩],
      pk := ["sport_id"], uniques := [["sport_slug"]], fks := [] }
  | TableId.disciplines =>
    { columns := [⟨"discipline_id", false⟩, ⟨"discipline_name", true⟩,
                  ⟨"discipline_slug", true⟩, ⟨"sport_id", true⟩,
                  ⟨"confidence", false⟩, ⟨"mapping_source", false⟩,
                  ⟨"created_at_utc", true⟩],
      pk := ["discipline_id"], uniques := [],
      fks := [⟨"sport_id", TableId.sports, "sport_id"⟩] }
  | TableId.sources =>
    { columns := [⟨"source_id", false⟩, ⟨"source_name", true⟩,
                  ⟨"source_type", false⟩, ⟨"license_notes", false⟩,
                  ⟨"base_url", false⟩],
      pk := ["source_id"], uniques := [], fks := [] }
  | TableId.competitions =>
    { columns := [⟨"competition_id", false⟩, ⟨"sport_id", true⟩,
                  ⟨"name", true⟩, ⟨"season_year", false⟩, ⟨"level", false⟩,
                  ⟨"start_date", false⟩, ⟨"end_date", false⟩,
                  ⟨"source_id", false⟩],
      pk := ["competition_id"], uniques := [],
      fks := [⟨"sport_id", TableId.sports, "sport_id"⟩,
              ⟨"source_id", TableId.sources, "source_id"⟩] }
  | TableId.events =>
    { columns := [⟨"event_id", false⟩, ⟨"competition_id", true⟩,
                  ⟨"discipline_id", false⟩, ⟨"gender", false⟩,
                  ⟨"event_class", false⟩, ⟨"event_date", false⟩],
      pk := ["event_id"], uniques := [],
      fks := [⟨"competition_id", TableId.competitions, "competition_id"⟩,
              ⟨"discipline_id", TableId.disciplines, "discipline_id"⟩] }
  | TableId.participants =>
    { columns := [⟨"participant_id", false⟩, ⟨"type", true⟩,
                  ⟨"display_name", true⟩, ⟨"country_id", false⟩],
      pk := ["participant_id"], uniques := [],
      fks := [⟨"country_id", TableId.countries, "country_id"⟩] }
  | TableId.results =>
    { columns := [⟨"event_id", true⟩, ⟨"participant_id", true⟩,
                  ⟨"rank", false⟩, ⟨"medal", false⟩, ⟨"score_raw", false⟩,
                  ⟨"points_awarded", false⟩],
      pk := ["event_id", "participant_id"], uniques := [],
      fks := [⟨"event_id", TableId.events, "event_id"⟩,
              ⟨"participant_id", TableId.participants, "participant_id"⟩] }
  | TableId.raw_imports =>
    { columns := [⟨"import_id", false⟩, ⟨"source_id", false⟩,
                  ⟨"fetched_at_utc", false⟩, ⟨"raw_path", false⟩,
                  ⟨"status", false⟩, ⟨"error", false⟩],
      pk := ["import_id"], uniques := [],
      fks := [⟨"source_id", TableId.sources, "source_id"⟩] }
  | TableId.sport_federations =>
    { columns := [⟨"sport_id", true⟩, ⟨"federation_qid", true⟩,
                  ⟨"federation_name", false⟩],
      pk := ["sport_id", "federation_qid"], uniques := [],
      fks := [⟨"sport_id", TableId.sports, "sport_id"⟩] }

/-- Column names of a table, in schema order. -/
def schemaColNames (tid : TableId) : List String :=
  (schema tid).columns.map (fun c => c.name)

/-- SQL name of a table (used in the engine's SQL strings and CSV names). -/
def tableName : TableId → String
  | TableId.countries => "countries"
  | TableId.sports => "sports"
  | TableId.disciplines => "disciplines"
  | TableId.sources => "sources"
  | TableId.competitions => "competitions"
  | TableId.events => "events"
  | TableId.participants => "participants"
  | TableId.results => "results"
  | TableId.raw_imports => "raw_imports"
  | TableId.sport_federations => "sport_federations"

/-- All tables, in SCHEMA_SQL order. -/
def allTables : List TableId :=
  [TableId.countries, TableId.sports, TableId.disciplines, TableId.sources,
   TableId.competitions, TableId.events, TableId.participants,
   TableId.results, TableId.raw_imports, TableId.sport_federations]

/-- The contents of the entity store: the rows of each of the ten tables. -/
structure Database where
  countries : List Row
  sports : List Row
  disciplines : List Row
  sources : List Row
  competitions : List Row
  events : List Row
  participants : List Row
  results : List Row
  raw_imports : List Row
  sport_federations : List Row
deriving DecidableEq, Repr

/-- Rows of one table. -/
def getTable (db : Database) : TableId → List Row
  | TableId.countries => db.countries
  | TableId.sports => db.sports
  | TableId.disciplines => db.disciplines
  | TableId.sources => db.sources
  | TableId.competitions => db.competitions
  | TableId.events => db.events
  | TableId.participants => db.participants
  | TableId.results => db.results
  | TableId.raw_imports => db.raw_imports
  | TableId.sport_federations => db.sport_federations

/-- Replace the rows of one table. -/
def setTable (db : Database) : TableId → List Row → Database
  | TableId.countries, r => { db with countries := r }
  | TableId.sports, r => { db with sports := r }
  | TableId.disciplines, r => { db with disciplines := r }
  | TableId.sources, r => { db with sources := r }
  | TableId.competitions, r => { db with competitions := r }
  | TableId.events, r => { db with events := r }
  | TableId.participants, r => { db with participants := r }
  | TableId.results, r => { db with results := r }
  | TableId.raw_imports, r => { db with raw_imports := r }
  | TableId.sport_federations, r => { db with sport_federations := r }

/-- The store right after create_schema on a fresh file: every table empty. -/
def emptyDb : Database := ⟨[], [], [], [], [], [], [], [], [], []⟩

/-! ## Constraint checking (SQLite with PRAGMA foreign_keys = ON)

upsert_dataframe issues at most two DML statements against the target
table (one bulk UPDATE, one bulk INSERT ... SELECT ... WHERE NOT EXISTS).
SQLite checks NOT NULL, PRIMARY KEY / UNIQUE and (with the pragma on)
immediate foreign keys during the statement and aborts the whole statement
on the first violation; the Python connection context manager then rolls
back the whole transaction.  The model below checks, for each statement,
that the rows the statement writes satisfy NOT NULL and their outgoing
foreign keys, that the resulting table has no PRIMARY KEY / UNIQUE
conflict, and (when an UPDATE rewrites a column some child table
references) that the child rows still have parents. -/

/-- Row r of a row set violates none of the NOT NULL clauses of cols. -/
def rowNotNullOk (cols : List ColumnSpec) (r : Row) : Bool :=
  cols.all (fun c => !c.notNull || !(colVal cols r c.name == Value.null))

/-- Row r satisfies each of its table's FOREIGN KEY clauses against the
parent tables of db: a NULL child value satisfies the constraint, a
non-null one must equal some parent row's referenced column.  (No table of
SCHEMA_SQL references itself, so reading the parent rows from db is exact
even while the child table is being rewritten.) -/
def rowFkOk (db : Database) (fks : List ForeignKey) (cols : List ColumnSpec)
    (r : Row) : Bool :=
  fks.all fun fk =>
    (colVal cols r fk.col == Value.null) ||
    (getTable db fk.parent).any (fun p =>
      sqlEq (colVal cols r fk.col)
        (colVal (schema fk.parent).columns p fk.parentCol))

/-- Two rows collide on a PRIMARY KEY / UNIQUE column set: in SQLite they
conflict iff every column of the set is equal and non-null in both (NULLs
are distinct in unique indexes). -/
def conflictsOn (cols : List ColumnSpec) (ucols : List String) (a b : Row) :
    Bool :=
  ucols.all (fun c => sqlEq (colVal cols a c) (colVal cols b c))

/-- No two rows (at distinct positions) of the list collide on ucols. -/
def noDupOn (cols : List ColumnSpec) (ucols : List String) : List Row → Bool
  | [] => true
  | r :: rs => rs.all (fun r2 => !conflictsOn cols ucols r r2) &&
      noDupOn cols ucols rs

/-- The PRIMARY KEY and every UNIQUE constraint of the table hold on rows. -/
def uniquesOk (sch : TableSchema) (rows : List Row) : Bool :=
  noDupOn sch.columns sch.pk rows &&
  sch.uniques.all (fun u => noDupOn sch.columns u rows)

/-! ## upsert_dataframe (src/core/db.py lines 39-69) -/

/-- Membership of a column name in a name list, as a Bool. -/
def memS : List String → String → Bool
  | [], _ => false
  | x :: xs, c => (x == c) || memS xs c

/-- Does the column list declare a column of this name? -/
def hasCol : List ColumnSpec → String → Bool
  | [], _ => false
  | col :: cs, c => (col.name == c) || hasCol cs c

/-- update_cols of the source: the frame columns not in pk_cols. -/
def updateColsOf (fcols pkc : List String) : List String :=
  fcols.filter (fun c => !memS pkc c)

/-- The WHERE clause t.{col}=s.{col} AND ... over the pk columns, between a
stored row t and a staged frame row s (SQL equality: NULL matches nothing). -/
def pkMatchB (tcols : List ColumnSpec) (fcols pkc : List String)
    (t s : Row) : Bool :=
  pkc.all (fun c => sqlEq (colVal tcols t c) (frameVal fcols s c))

/-- The first staged row matching stored row t on the pk columns: the value
the correlated scalar subqueries (SELECT s.{col} FROM staging AS s WHERE
t.pk=s.pk) read, staged rows being scanned in insertion (frame) order. -/
def firstMatch (tcols : List ColumnSpec) (fcols pkc : List String)
    (staged : List Row) (t : Row) : Option Row :=
  staged.find? (fun s => pkMatchB tcols fcols pkc t s)

/-- The row the bulk UPDATE writes for a matched stored row t using staged
row s: each column in updCols is set to s's value, the others keep t's
value (rows are rebuilt at full schema width, missing positions as NULL). -/
def updValues (updCols fcols : List String) (s : Row) :
    List ColumnSpec → Row → Row
  | [], _ => []
  | c :: cs, t =>
    (if memS updCols c.name then frameVal fcols s c.name
     else t.headD Value.null) :: updValues updCols fcols s cs t.tail

/-- Effect of the bulk UPDATE on one stored row: rows without a staged pk
match are untouched, matched rows get the first matching staged row's
values on update_cols.  When update_cols is empty the source skips the
UPDATE statement entirely. -/
def updRow (tcols : List ColumnSpec) (fcols pkc : List String)
    (staged : List Row) (t : Row) : Row :=
  let updCols := updateColsOf fcols pkc
  if updCols.isEmpty then t
  else
    match firstMatch tcols fcols pkc staged t with
    | none => t
    | some s => updValues updCols fcols s tcols t

/-- The staged rows the INSERT keeps: those with no pk match in the target
table (the NOT EXISTS filter runs against the target table only - staged
rows are not checked against each other). -/
def toInsert (tcols : List ColumnSpec) (fcols pkc : List String)
    (tbl staged : List Row) : List Row :=
  staged.filter (fun s => !(tbl.any (fun t => pkMatchB tcols fcols pkc t s)))

/-- A staged row as the INSERT stores it: named columns take the staged
value, schema columns absent from the frame become NULL. -/
def storedOf (tcols : List ColumnSpec) (fcols : List String) (s : Row) :
    Row :=
  tcols.map (fun c =>
    if memS fcols c.name then frameVal fcols s c.name else Value.null)

/-- Does some child table's FOREIGN KEY reference a column of tid that the
UPDATE is about to rewrite?  Only then does SQLite have parent-side checks
to do. -/
def incomingNeeded (tid : TableId) (updCols : List String) : Bool :=
  allTables.any (fun ct => (schema ct).fks.any (fun fk =>
    fk.parent == tid && memS updCols fk.parentCol))

/-- Every child row referencing tid still finds its parent among newRows. -/
def incomingOk (db : Database) (tid : TableId) (newRows : List Row) : Bool :=
  allTables.all fun ct => (schema ct).fks.all fun fk =>
    fk.parent != tid ||
    (getTable db ct).all fun r =>
      (colVal (schema ct).columns r fk.col == Value.null) ||
      newRows.any (fun p =>
        sqlEq (colVal (schema ct).columns r fk.col)
          (colVal (schema tid).columns p fk.parentCol))

/-- The bulk UPDATE statement (skipped by the source when update_cols is
empty).  Returns the table's rows after the statement, or the constraint
error aborting it. -/
def runUpdate (db : Database) (tid : TableId) (pkc fcols : List String)
    (staged : List Row) : Except String (List Row) :=
  let sch := schema tid
  let T := getTable db tid
  let updCols := updateColsOf fcols pkc
  if updCols.isEmpty then Except.ok T
  else
    let U := T.map (updRow sch.columns fcols pkc staged)
    let changedOk := T.all fun t =>
      match firstMatch sch.columns fcols pkc staged t with
      | none => true
      | some _ =>
        rowNotNullOk sch.columns (updRow sch.columns fcols pkc staged t) &&
        rowFkOk db sch.fks sch.columns (updRow sch.columns fcols pkc staged t)
    if changedOk && uniquesOk sch U &&
        (!incomingNeeded tid updCols || incomingOk db tid U) then
      Except.ok U
    else
      Except.error ("constraint failed during UPDATE on " ++ tableName tid)

/-- The bulk INSERT ... WHERE NOT EXISTS statement, run against table state
tbl (the target table after the UPDATE). -/
def runInsert (db : Database) (tid : TableId) (pkc fcols : List String)
    (staged tbl : List Row) : Except String (List Row) :=
  let sch := schema tid
  let ins := (toInsert sch.columns fcols pkc tbl staged).map
    (storedOf sch.columns fcols)
  if ins.all (fun r => rowNotNullOk sch.columns r &&
        rowFkOk db sch.fks sch.columns r) &&
      uniquesOk sch (tbl ++ ins) then
    Except.ok (tbl ++ ins)
  else
    Except.error ("constraint failed during INSERT on " ++ tableName tid)

/-- The plain INSERT the source issues when pk_cols is empty (falsy). -/
def runInsertAll (db : Database) (tid : TableId) (fcols : List String)
    (staged : List Row) : Except String (List Row) :=
  let sch := schema tid
  let T := getTable db tid
  let ins := staged.map (storedOf sch.columns fcols)
  if ins.all (fun r => rowNotNullOk sch.columns r &&
        rowFkOk db sch.fks sch.columns r) &&
      uniquesOk sch (T ++ ins) then
    Except.ok (T ++ ins)
  else
    Except.error ("constraint failed during INSERT on " ++ tableName tid)

/-- No duplicates, as a Bool (duplicate frame columns make the staging
CREATE TABLE fail). -/
def nodupB : List String → Bool
  | [] => true
  | c :: cs => !memS cs c && nodupB cs

/-- The interpolated SQL of the source names staging columns s.{col} for
every frame and pk column, target columns t.{col} for every pk column, and
lists every frame column in INSERT INTO {table} (...): a name that does not
exist raises sqlite3.OperationalError before any row is written. -/
def guardOk (tid : TableId) (pkc fcols : List String) : Bool :=
  nodupB fcols &&
  fcols.all (fun c => hasCol (schema tid).columns c) &&
  (pkc.isEmpty ||
    (pkc.all (fun c => memS fcols c) &&
     pkc.all (fun c => hasCol (schema tid).columns c)))

/-- The transaction body of upsert_dataframe: stage the batch, bulk UPDATE
(when pk_cols and update_cols are non-empty), bulk insert-where-not-exists
(or a plain INSERT when pk_cols is falsy), each statement aborting the
transaction on a constraint violation. -/
def upsertTx (db : Database) (tid : TableId) (pkc : List String)
    (df : Frame) : Except String Database :=
  if guardOk tid pkc df.cols then
    if pkc.isEmpty then
      match runInsertAll db tid df.cols df.rows with
      | Except.error e => Except.error e
      | Except.ok newT => Except.ok (setTable db tid newT)
    else
      match runUpdate db tid pkc df.cols df.rows with
      | Except.error e => Except.error e
      | Except.ok tbl =>
        match runInsert db tid pkc df.cols df.rows tbl with
        | Except.error e => Except.error e
        | Except.ok newT => Except.ok (setTable db tid newT)
  else Except.error ("no such column in " ++ tableName tid)

/-- SQLiteDB.upsert_dataframe.  An empty frame (df is None or df.empty)
returns 0 before touching the store; otherwise the transaction runs, the
connection context manager commits on success and rolls the store back to
its pre-call state on any exception, and the call returns len(clean_df). -/
def upsert_dataframe (db : Database) (tid : TableId) (pkc : List String)
    (df : Frame) : Database × Except String Nat :=
  if df.rows.isEmpty || df.cols.isEmpty then (db, Except.ok 0)
  else
    match upsertTx db tid pkc df with
    | Except.ok db2 => (db2, Except.ok df.rows.length)
    | Except.error e => (db, Except.error e)

/-! ## Referential-integrity validator (src/core/validation.py) -/

/-- One element of the report's checks list: {check, invalid_rows, ok}. -/
structure CheckResult where
  check : String
  invalid_rows : Nat
  ok : Bool
deriving DecidableEq, Repr

/-- The count a LEFT JOIN / IS NULL query of run_fk_integrity_checks
computes: the child rows whose fk column joins no parent row (a NULL child
value joins nothing and is counted invalid). -/
def fkInvalidCount (db : Database) (child : TableId) (ccol : String)
    (par : TableId) (pcol : String) : Nat :=
  ((getTable db child).filter (fun r =>
    !((getTable db par).any (fun p =>
      sqlEq (colVal (schema child).columns r ccol)
        (colVal (schema par).columns p pcol))))).length

/-- run_fk_integrity_checks: the five dangling-foreign-key counts. -/
def run_fk_integrity_checks (db : Database) : List CheckResult :=
  [("disciplines.sport_id exists",
      fkInvalidCount db TableId.disciplines "sport_id" TableId.sports
        "sport_id"),
   ("competitions.sport_id exists",
      fkInvalidCount db TableId.competitions "sport_id" TableId.sports
        "sport_id"),
   ("events.competition_id exists",
      fkInvalidCount db TableId.events "competition_id" TableId.competitions
        "competition_id"),
   ("results.event_id exists",
      fkInvalidCount db TableId.results "event_id" TableId.events
        "event_id"),
   ("results.participant_id exists",
      fkInvalidCount db TableId.results "participant_id"
        TableId.participants "participant_id")
  ].map (fun nc => { check := nc.1, invalid_rows := nc.2,
                     ok := nc.2 == 0 })

/-- SQLite evaluation of "rank IS NOT NULL AND rank < 1" on one value: a
NULL is filtered out, a numeric value compares normally, and a TEXT value
sorts above every numeric so it is never < 1. -/
def rankBad : Value → Bool
  | Value.intv n => n < 1
  | _ => false

/-- run_sanity_checks: the rank domain check and the participant-country
check. -/
def run_sanity_checks (db : Database) : List CheckResult :=
  [("results.rank >= 1 or null",
      ((getTable db TableId.results).filter (fun r =>
        rankBad (colVal (schema TableId.results).columns r "rank"))).length),
   ("participants.country_id exists or null",
      ((getTable db TableId.participants).filter (fun r =>
        !(colVal (schema TableId.participants).columns r "country_id"
            == Value.null) &&
        !((getTable db TableId.countries).any (fun p =>
          sqlEq (colVal (schema TableId.participants).columns r "country_id")
            (colVal (schema TableId.countries).columns p
              "country_id"))))).length)
  ].map (fun nc => { check := nc.1, invalid_rows := nc.2,
                     ok := nc.2 == 0 })

/-- The aggregate report of run_all_checks (the db_path echo field of the
source carries no information about the store and is omitted). -/
structure Report where
  checks_total : Nat
  checks_failed : Nat
  passed : Bool
  checks : List CheckResult
deriving DecidableEq, Repr

/-- run_all_checks: concatenate the two check lists and aggregate. -/
def run_all_checks (db : Database) : Report :=
  let all := run_fk_integrity_checks db ++ run_sanity_checks db
  let failed := all.filter (fun c => !c.ok)
  { checks_total := all.length, checks_failed := failed.length,
    passed := failed.length == 0, checks := all }

/-! ## Multi-view export builder (src/core/multi_db.py)

The builder reads the master store and (re)writes one directory of CSV
files per base.  A directory is modelled as an association list from file
name to CSV content; the master store file is an Option Database, none
standing for a missing file whose schema create_schema creates (SCHEMA_SQL
is only CREATE TABLE IF NOT EXISTS / CREATE INDEX IF NOT EXISTS
statements, so on an existing store it leaves every table's contents
untouched). -/

/-- A flat CSV export of one table: header row and data rows. -/
structure CsvFile where
  header : List String
  rows : List Row
deriving DecidableEq, Repr

/-- SQLiteDB.read_table: SELECT * as a frame with the schema's columns. -/
def read_table (db : Database) (tid : TableId) : CsvFile :=
  ⟨schemaColNames tid, getTable db tid⟩

/-- SQLiteDB.create_schema on the master path: a missing file becomes the
fresh empty store, an existing store keeps all contents. -/
def create_schema : Option Database → Database
  | none => emptyDb
  | some db => db

/-- _export_tables_to_csv_base: delete stale CSVs not in the table list,
fully re-export every listed table (overwrite), return per-table counts. -/
def exportTablesToCsvBase (master : Database)
    (baseDir : List (String × CsvFile)) (tables : List TableId) :
    (List (String × CsvFile)) × List (String × Nat) :=
  let expected := tables.map (fun t => tableName t ++ ".csv")
  let kept := baseDir.filter (fun f => expected.contains f.1)
  let written := tables.map (fun t =>
    (tableName t ++ ".csv", read_table master t))
  (written ++ kept.filter (fun f =>
      !(written.map (fun w => w.1)).contains f.1),
   tables.map (fun t => (tableName t, (getTable master t).length)))

/-- The competition base's table list. -/
def competition_tables : List TableId :=
  [TableId.countries, TableId.sports, TableId.disciplines, TableId.sources,
   TableId.sport_federations, TableId.competitions, TableId.events,
   TableId.participants, TableId.results]

/-- The lineage base's table list. -/
def lineage_tables : List TableId := [TableId.raw_imports]

/-- The value build_multi_database_architecture returns: the master store
as left on disk, the two rebuilt base directories, and the payload's
rows_synced manifest per base. -/
structure BuildResult where
  master : Database
  competitionBase : List (String × CsvFile)
  lineageBase : List (String × CsvFile)
  rows_synced : List (String × List (String × Nat))
deriving DecidableEq, Repr

/-- build_multi_database_architecture: ensure the schema on the master
store, then fully re-export the competition and lineage bases from it. -/
def build_multi_database_architecture (store : Option Database)
    (compBase lineBase : List (String × CsvFile)) : BuildResult :=
  let master := create_schema store
  let comp := exportTablesToCsvBase master compBase competition_tables
  let line := exportTablesToCsvBase master lineBase lineage_tables
  { master := master, competitionBase := comp.1, lineageBase := line.1,
    rows_synced := [("competition", comp.2), ("lineage", line.2)] }

/-! ## Identity derivation (src/core/utils.py)

Python strings are modelled as List Char.  Char.toLower agrees with
str.lower on ASCII; outside ASCII both sides produce characters that the
[^a-z0-9] class replaces anyway, so slugify's output is unaffected. -/

/-- The [a-z0-9] character class of SLUG_PATTERN. -/
def isAlnum (c : Char) : Bool :=
  (decide ('a' ≤ c) && decide (c ≤ 'z')) ||
  (decide ('0' ≤ c) && decide (c ≤ '9'))

/-- The whitespace class str.strip removes (the ASCII part). -/
def isSpace (c : Char) : Bool :=
  c == ' ' || c == '\t' || c == '\n' || c == '\r' ||
  c == '\x0B' || c == '\x0C'

/-- Drop leading characters satisfying p, then trailing ones: str.strip. -/
def stripEnds (p : Char → Bool) (l : List Char) : List Char :=
  ((l.dropWhile p).reverse.dropWhile p).reverse

/-- re.sub(r"[^a-z0-9]+", "-", s): emit kept characters, collapse each
maximal run of others to one dash.  The flag records being inside a run
whose dash was already emitted. -/
def subRunsAux : Bool → List Char → List Char
  | _, [] => []
  | inRun, c :: cs =>
    if isAlnum c then c :: subRunsAux false cs
    else if inRun then subRunsAux true cs
    else '-' :: subRunsAux true cs

/-- re.sub(r"[^a-z0-9]+", "-", s) on a whole string. -/
def subRuns (l : List Char) : List Char := subRunsAux false l

/-- slugify (src/core/utils.py lines 22-25): strip whitespace, lower-case,
collapse non-alphanumeric runs to "-", strip dashes, fall back to
"unknown" when empty. -/
def slugify (l : List Char) : List Char :=
  let lowered := (stripEnds isSpace l).map Char.toLower
  let slug := stripEnds (fun c => c == '-') (subRunsAux false lowered)
  if slug.isEmpty then "unknown".data else slug

/-- "|".join(str(part) for part in parts): the payload stable_sha1 hashes,
over the string forms of the fields. -/
def sepJoin : List (List Char) → List Char
  | [] => []
  | [p] => p
  | p :: q :: rest => p ++ '|' :: sepJoin (q :: rest)

/-! ## Concrete fixtures used by witnesses and counterexamples -/

/-- A store holding one sport row (sport_id "s1"). -/
def dbSportsW : Database :=
  { emptyDb with sports :=
      [[Value.text "s1", Value.text "Foo", Value.text "foo",
        Value.text "t"]] }

/-- A disciplines batch whose second row references a sport that does not
exist ("nope"): the staged INSERT violates the sport_id foreign key. -/
def dfDiscW : Frame :=
  ⟨["discipline_id", "discipline_name", "discipline_slug", "sport_id",
    "created_at_utc"],
   [[Value.text "d1", Value.text "D1", Value.text "d1", Value.text "s1",
     Value.text "t"],
    [Value.text "d2", Value.text "D2", Value.text "d2", Value.text "nope",
     Value.text "t"]]⟩

/-- A countries batch whose single row has a NULL primary-key value. -/
def dfNullPkW : Frame :=
  ⟨["country_id", "name_en"], [[Value.null, Value.text "X"]]⟩

/-- A store holding one event whose competition_id dangles. -/
def dbEventsW : Database :=
  { emptyDb with events :=
      [[Value.text "e1", Value.text "c1", Value.null, Value.null,
        Value.null, Value.null]] }

/-- Every non-null foreign-key value of every table references an existing
parent row (the invariant of claim C6). -/
def fkConsistentB (db : Database) : Bool :=
  allTables.all fun t => (getTable db t).all fun r =>
    rowFkOk db (schema t).fks (schema t).columns r

/-- Store states reachable from a freshly created schema by successful
upsert_dataframe calls. -/
inductive Reachable : Database → Prop
  | init : Reachable emptyDb
  | step (db : Database) (tid : TableId) (pkc : List String) (df : Frame)
      (db2 : Database) (n : Nat) : Reachable db →
      upsert_dataframe db tid pkc df = (db2, Except.ok n) → Reachable db2

/-- A sports batch with one fully populated row. -/
def dfSportsW : Frame :=
  ⟨["sport_id", "sport_name", "sport_slug", "created_at_utc"],
   [[Value.text "s1", Value.text "Foo", Value.text "foo", Value.text "t"]]⟩

/-- A disciplines batch with one row referencing sport s1. -/
def dfDiscOkW : Frame :=
  ⟨["discipline_id", "discipline_name", "discipline_slug", "sport_id",
    "created_at_utc"],
   [[Value.text "d1", Value.text "D1", Value.text "d1", Value.text "s1",
     Value.text "t"]]⟩

/-- The store after upserting dfSportsW into the fresh store. -/
def dbReach1W : Database :=
  (upsert_dataframe emptyDb TableId.sports ["sport_id"] dfSportsW).1

/-- The store after additionally upserting dfDiscOkW. -/
def dbReach2W : Database :=
  (upsert_dataframe dbReach1W TableId.disciplines ["discipline_id"]
    dfDiscOkW).1

/-- The store after upserting {country_id X, iso2 "a"/"b", name_en N}. -/
def dbLwwW : Database :=
  { emptyDb with countries :=
      [[Value.text "X", Value.text "b", Value.null, Value.text "N",
        Value.null]] }

/-- The batch {country_id X, iso2 NULL}: an explicit NULL overwrite. -/
def dfLwwNullW : Frame :=
  ⟨["country_id", "iso2"], [[Value.text "X", Value.null]]⟩

/-- The store after that null-overwrite upsert. -/
def dbLww2W : Database :=
  (upsert_dataframe dbLwwW TableId.countries ["country_id"] dfLwwNullW).1

/-- A countries batch holding two rows with the same fresh key "AAA". -/
def dfDupW : Frame :=
  ⟨["country_id", "name_en"],
   [[Value.text "AAA", Value.text "A"], [Value.text "AAA", Value.text "B"]]⟩

/-- A countries batch keyed (wrongly) on iso2: two distinct country rows
share iso2 "x". -/
def dfIso2W : Frame :=
  ⟨["country_id", "iso2", "name_en"],
   [[Value.text "AAA", Value.text "x", Value.text "A"],
    [Value.text "BBB", Value.text "x", Value.text "B"]]⟩

/-- The store after the first (successful) iso2-keyed merge. -/
def dbIso2W : Database :=
  (upsert_dataframe emptyDb TableId.countries ["iso2"] dfIso2W).1

/-- A well-formed two-row countries batch keyed on the real primary key. -/
def dfCW : Frame :=
  ⟨["country_id", "iso2", "name_en"],
   [[Value.text "AAA", Value.text "x", Value.text "A"],
    [Value.text "BBB", Value.text "y", Value.text "B"]]⟩

/-- The store after the first merge of dfCW. -/
def dbCW : Database :=
  (upsert_dataframe emptyDb TableId.countries
    (schema TableId.countries).pk dfCW).1

/-- The literal reading of claim C8: the input lower-cased with each
maximal non-alphanumeric run replaced by one dash, with the "unknown"
fallback for an empty or all-punctuation input - and no trimming. -/
def slugifySpecLiteral (l : List Char) : List Char :=
  if (l.map Char.toLower).all (fun c => !isAlnum c) then "unknown".data
  else subRuns (l.map Char.toLower)

/-! ## Helper lemmas -/

lemma sqlEq_null_right (a : Value) : sqlEq a Value.null = false := by
  cases a <;> rfl

lemma sqlEq_null_left (a : Value) : sqlEq Value.null a = false := by
  cases a <;> rfl

lemma sqlEq_eq_true_iff (a b : Value) :
    sqlEq a b = true ↔ a = b ∧ a ≠ Value.null := by
  cases a <;> cases b <;> simp [sqlEq]

lemma sqlEq_symm (a b : Value) : sqlEq a b = sqlEq b a := by
  rw [Bool.eq_iff_iff, sqlEq_eq_true_iff, sqlEq_eq_true_iff]
  constructor
  · rintro ⟨rfl, h⟩; exact ⟨rfl, h⟩
  · rintro ⟨rfl, h⟩; exact ⟨rfl, h⟩

lemma sqlEq_self (a : Value) (h : a ≠ Value.null) : sqlEq a a = true :=
  (sqlEq_eq_true_iff a a).mpr ⟨rfl, h⟩

lemma memS_iff (l : List String) (c : String) : memS l c = true ↔ c ∈ l := by
  induction l with
  | nil => simp [memS]
  | cons x xs ih =>
    rw [memS, Bool.or_eq_true, ih]
    constructor
    · rintro (h | h)
      · exact List.mem_cons.mpr (Or.inl (beq_iff_eq.mp h).symm)
      · exact List.mem_cons_of_mem x h
    · intro h
      rcases List.mem_cons.mp h with h | h
      · exact Or.inl (beq_iff_eq.mpr h.symm)
      · exact Or.inr h

lemma hasCol_iff (cs : List ColumnSpec) (c : String) :
    hasCol cs c = true ↔ ∃ col ∈ cs, col.name = c := by
  induction cs with
  | nil => simp [hasCol]
  | cons x xs ih =>
    rw [hasCol, Bool.or_eq_true, ih]
    constructor
    · rintro (h | ⟨col, hm, he⟩)
      · exact ⟨x, List.mem_cons_self x xs, beq_iff_eq.mp h⟩
      · exact ⟨col, List.mem_cons_of_mem x hm, he⟩
    · rintro ⟨col, hm, he⟩
      rcases List.mem_cons.mp hm with h | h
      · subst h; exact Or.inl (beq_iff_eq.mpr he)
      · exact Or.inr ⟨col, h, he⟩

lemma colVal_nil_row (cs : List ColumnSpec) (c : String) :
    colVal cs [] c = Value.null := by
  cases cs <;> rfl

lemma memS_updateColsOf (fcols pkc : List String) (c : String) :
    memS (updateColsOf fcols pkc) c = true ↔
      memS fcols c = true ∧ memS pkc c = false := by
  rw [memS_iff, updateColsOf, List.mem_filter, memS_iff]
  constructor
  · rintro ⟨h1, h2⟩
    refine ⟨h1, ?_⟩
    cases h : memS pkc c with
    | false => rfl
    | true => rw [h] at h2; exact absurd h2 (by decide)
  · rintro ⟨h1, h2⟩
    exact ⟨h1, by rw [h2]; rfl⟩

lemma memS_updateColsOf_of_pk (fcols pkc : List String) (c : String)
    (h : c ∈ pkc) : memS (updateColsOf fcols pkc) c = false := by
  cases hm : memS (updateColsOf fcols pkc) c with
  | false => rfl
  | true =>
    have := (memS_updateColsOf fcols pkc c).mp hm
    rw [(memS_iff pkc c).mpr h] at this
    exact absurd this.2 (by decide)

/-- colVal after the UPDATE's row rewrite: columns in updCols read the
staged value (when the schema declares them), others keep the old value. -/
lemma colVal_updValues (updCols fcols : List String) (s : Row) :
    ∀ (tcols : List ColumnSpec) (t : Row) (c : String),
    colVal tcols (updValues updCols fcols s tcols t) c =
      if memS updCols c && hasCol tcols c then frameVal fcols s c
      else colVal tcols t c := by
  intro tcols
  induction tcols with
  | nil =>
    intro t c
    show Value.null =
      if memS updCols c && hasCol [] c then frameVal fcols s c
      else colVal [] t c
    cases hm : memS updCols c <;> rfl
  | cons col cs ih =>
    intro t c
    by_cases h : col.name = c
    · subst h
      have hh : hasCol (col :: cs) col.name = true := by
        rw [hasCol_iff]; exact ⟨col, List.mem_cons_self _ _, rfl⟩
      rw [hh, Bool.and_true]
      cases t with
      | nil => cases hm : memS updCols col.name <;>
          simp [updValues, colVal, hm, colVal_nil_row]
      | cons v vs => cases hm : memS updCols col.name <;>
          simp [updValues, colVal, hm]
    · have hne : (col.name == c) = false := beq_eq_false_iff_ne.mpr h
      have hh : hasCol (col :: cs) c = hasCol cs c := by
        rw [hasCol, hne, Bool.false_or]
      rw [hh]
      cases t with
      | nil =>
        simp only [updValues, colVal, if_neg h, List.tail]
        rw [ih]
        simp [colVal_nil_row]
      | cons v vs =>
        simp only [updValues, colVal, if_neg h, List.tail]
        exact ih vs c

lemma colVal_updValues_not_upd (updCols fcols : List String) (s : Row)
    (tcols : List ColumnSpec) (t : Row) (c : String)
    (h : memS updCols c = false) :
    colVal tcols (updValues updCols fcols s tcols t) c = colVal tcols t c := by
  rw [colVal_updValues, h]; simp

/-- colVal of a freshly inserted row: frame columns carry the staged value,
schema columns outside the frame are NULL. -/
lemma colVal_storedOf (fcols : List String) (s : Row) :
    ∀ (tcols : List ColumnSpec) (c : String),
    colVal tcols (storedOf tcols fcols s) c =
      if hasCol tcols c then
        (if memS fcols c then frameVal fcols s c else Value.null)
      else Value.null := by
  intro tcols
  induction tcols with
  | nil => intro c; simp [storedOf, colVal, hasCol]
  | cons col cs ih =>
    intro c
    by_cases h : col.name = c
    · subst h
      simp [storedOf, colVal, hasCol]
    · have hne : (col.name == c) = false := by
        simp [beq_eq_false_iff_ne]; exact h
      simp only [storedOf, List.map, colVal, if_neg h, hasCol, hne,
        Bool.false_or]
      exact ih c

lemma getTable_setTable_self (db : Database) (t : TableId) (r : List Row) :
    getTable (setTable db t r) t = r := by
  cases t <;> rfl

lemma getTable_setTable_ne (db : Database) (t t' : TableId) (r : List Row)
    (h : t' ≠ t) : getTable (setTable db t r) t' = getTable db t' := by
  cases t <;> cases t' <;> first
    | rfl
    | exact absurd rfl h

lemma setTable_getTable (db : Database) (t : TableId) :
    setTable db t (getTable db t) = db := by
  cases t <;> rfl

lemma mem_allTables (t : TableId) : t ∈ allTables := by
  cases t <;> simp [allTables]

/-- No table of SCHEMA_SQL references itself. -/
lemma no_self_fk (t : TableId) : ∀ fk ∈ (schema t).fks, fk.parent ≠ t := by
  cases t <;> decide

lemma schema_pk_ne_nil (t : TableId) : (schema t).pk ≠ [] := by
  cases t <;> decide

lemma conflictsOn_symm (cols : List ColumnSpec) (u : List String) (a b : Row) :
    conflictsOn cols u a b = conflictsOn cols u b a := by
  simp only [conflictsOn]
  congr 1
  funext c
  exact sqlEq_symm _ _

lemma noDupOn_iff (cols : List ColumnSpec) (u : List String) (l : List Row) :
    noDupOn cols u l = true ↔
      l.Pairwise (fun a b => conflictsOn cols u a b = false) := by
  induction l with
  | nil => simp [noDupOn]
  | cons r rs ih =>
    simp [noDupOn, List.pairwise_cons, ih, List.all_eq_true]

lemma eq_of_noDup_conflict (cols : List ColumnSpec) (u : List String)
    (l : List Row) (h : noDupOn cols u l = true) (a b : Row)
    (ha : a ∈ l) (hb : b ∈ l) (hc : conflictsOn cols u a b = true) : a = b := by
  rw [noDupOn_iff] at h
  by_contra hne
  have hsym : Symmetric (fun a b : Row => conflictsOn cols u a b = false) := by
    intro x y hxy
    rw [conflictsOn_symm]; exact hxy
  have := List.Pairwise.forall hsym h ha hb hne
  rw [hc] at this
  exact absurd this (by decide)

lemma all_congr_mem {α : Type} (l : List α) (f g : α → Bool)
    (h : ∀ a ∈ l, f a = g a) : l.all f = l.all g := by
  induction l with
  | nil => rfl
  | cons x xs ih =>
    rw [List.all_cons, List.all_cons, h x (List.mem_cons_self x xs),
      ih (fun a ha => h a (List.mem_cons_of_mem x ha))]

/-- The UPDATE never rewrites a pk column (update_cols excludes pk_cols),
so a rewritten row matches the same staged rows as before. -/
lemma pkMatchB_updRow (tcols : List ColumnSpec) (fcols pkc : List String)
    (staged : List Row) (t s : Row) :
    pkMatchB tcols fcols pkc (updRow tcols fcols pkc staged t) s =
      pkMatchB tcols fcols pkc t s := by
  have hcv : ∀ c ∈ pkc,
      colVal tcols (updRow tcols fcols pkc staged t) c = colVal tcols t c := by
    intro c hc
    simp only [updRow]
    split
    · rfl
    · split
      · rfl
      · exact colVal_updValues_not_upd _ fcols _ tcols t c
          (memS_updateColsOf_of_pk fcols pkc c hc)
  simp only [pkMatchB]
  exact all_congr_mem pkc _ _ (fun c hc => by rw [hcv c hc])

lemma firstMatch_updRow (tcols : List ColumnSpec) (fcols pkc : List String)
    (staged : List Row) (t : Row) :
    firstMatch tcols fcols pkc staged (updRow tcols fcols pkc staged t) =
      firstMatch tcols fcols pkc staged t := by
  simp only [firstMatch]
  congr 1
  funext s
  exact pkMatchB_updRow tcols fcols pkc staged t s

lemma updValues_idem (u fcols : List String) (s : Row) :
    ∀ (tcols : List ColumnSpec) (t : Row),
    updValues u fcols s tcols (updValues u fcols s tcols t) =
      updValues u fcols s tcols t := by
  intro tcols
  induction tcols with
  | nil => intro t; rfl
  | cons c cs ih =>
    intro t
    simp only [updValues, List.headD_cons, List.tail_cons]
    cases hm : memS u c.name <;> simp [hm, ih]

/-- Rewriting a row twice with the same staging content is the same as
rewriting it once. -/
lemma updRow_idem (tcols : List ColumnSpec) (fcols pkc : List String)
    (staged : List Row) (t : Row) :
    updRow tcols fcols pkc staged (updRow tcols fcols pkc staged t) =
      updRow tcols fcols pkc staged t := by
  cases hu : (updateColsOf fcols pkc).isEmpty with
  | true => simp [updRow, hu]
  | false =>
    have unf : ∀ x : Row, updRow tcols fcols pkc staged x =
        match firstMatch tcols fcols pkc staged x with
        | none => x
        | some s => updValues (updateColsOf fcols pkc) fcols s tcols x := by
      intro x; simp [updRow, hu]
    cases hfm : firstMatch tcols fcols pkc staged t with
    | none =>
      have hin : updRow tcols fcols pkc staged t = t := by rw [unf, hfm]
      rw [hin]
      exact hin
    | some s0 =>
      have hin : updRow tcols fcols pkc staged t =
          updValues (updateColsOf fcols pkc) fcols s0 tcols t := by
        rw [unf, hfm]
      have hfm2 : firstMatch tcols fcols pkc staged
          (updValues (updateColsOf fcols pkc) fcols s0 tcols t) = some s0 := by
        rw [← hin, firstMatch_updRow, hfm]
      rw [hin, unf, hfm2]
      exact updValues_idem _ _ _ _ _

lemma rowFkOk_setTable (db : Database) (tid : TableId) (newT : List Row)
    (fks : List ForeignKey) (cols : List ColumnSpec) (r : Row)
    (hfks : ∀ fk ∈ fks, fk.parent ≠ tid) :
    rowFkOk (setTable db tid newT) fks cols r = rowFkOk db fks cols r := by
  simp only [rowFkOk]
  apply all_congr_mem
  intro fk hfk
  rw [getTable_setTable_ne db tid fk.parent newT (hfks fk hfk)]

/-- Any failure of the transaction body leaves the store exactly as it was:
the connection context manager rolls back before upsert_dataframe re-raises. -/
lemma upsert_error_rollback (db : Database) (tid : TableId)
    (pkc : List String) (df : Frame) (e : String)
    (h : (upsert_dataframe db tid pkc df).2 = Except.error e) :
    (upsert_dataframe db tid pkc df).1 = db := by
  unfold upsert_dataframe at *
  split at h
  · simp at h
  · split at h <;> simp_all

lemma upsert_ok_elim (db : Database) (tid : TableId) (pkc : List String)
    (df : Frame) (db1 : Database) (n : Nat)
    (h : upsert_dataframe db tid pkc df = (db1, Except.ok n)) :
    ((df.rows.isEmpty || df.cols.isEmpty) = true ∧ db1 = db ∧ n = 0) ∨
    ((df.rows.isEmpty || df.cols.isEmpty) = false ∧ n = df.rows.length ∧
     guardOk tid pkc df.cols = true ∧
     ((pkc.isEmpty = true ∧ ∃ newT,
         runInsertAll db tid df.cols df.rows = Except.ok newT ∧
         db1 = setTable db tid newT) ∨
      (pkc.isEmpty = false ∧ ∃ tbl newT,
         runUpdate db tid pkc df.cols df.rows = Except.ok tbl ∧
         runInsert db tid pkc df.cols df.rows tbl = Except.ok newT ∧
         db1 = setTable db tid newT))) := by
  unfold upsert_dataframe at h
  split at h
  · rename_i hempty
    rw [Prod.mk.injEq] at h
    left
    refine ⟨hempty, h.1.symm, ?_⟩
    have h2 := h.2
    simp only [Except.ok.injEq] at h2
    exact h2.symm
  · rename_i hempty
    have hempty2 : (df.rows.isEmpty || df.cols.isEmpty) = false :=
      Bool.eq_false_iff.mpr hempty
    right
    cases htx : upsertTx db tid pkc df with
    | error e =>
      rw [htx] at h
      rw [Prod.mk.injEq] at h
      exact absurd h.2 (by simp)
    | ok db2 =>
      rw [htx] at h
      rw [Prod.mk.injEq] at h
      have hdb1 : db1 = db2 := h.1.symm
      have hn : n = df.rows.length := by
        have h2 := h.2
        simp only [Except.ok.injEq] at h2
        exact h2.symm
      have main : guardOk tid pkc df.cols = true ∧
          ((pkc.isEmpty = true ∧ ∃ newT,
              runInsertAll db tid df.cols df.rows = Except.ok newT ∧
              db1 = setTable db tid newT) ∨
           (pkc.isEmpty = false ∧ ∃ tbl newT,
              runUpdate db tid pkc df.cols df.rows = Except.ok tbl ∧
              runInsert db tid pkc df.cols df.rows tbl = Except.ok newT ∧
              db1 = setTable db tid newT)) := by
        unfold upsertTx at htx
        split at htx
        · rename_i hguard
          refine ⟨hguard, ?_⟩
          split at htx
          · rename_i hpk
            left
            cases hrun : runInsertAll db tid df.cols df.rows with
            | error e => rw [hrun] at htx; exact absurd htx (by simp)
            | ok newT =>
              rw [hrun] at htx
              simp only [Except.ok.injEq] at htx
              exact ⟨hpk, newT, rfl, by rw [hdb1, ← htx]⟩
          · rename_i hpk
            right
            cases hupd : runUpdate db tid pkc df.cols df.rows with
            | error e => rw [hupd] at htx; exact absurd htx (by simp)
            | ok tbl =>
              rw [hupd] at htx
              dsimp only at htx
              cases hins : runInsert db tid pkc df.cols df.rows tbl with
              | error e => rw [hins] at htx; exact absurd htx (by simp)
              | ok newT =>
                rw [hins] at htx
                simp only [Except.ok.injEq] at htx
                exact ⟨Bool.eq_false_iff.mpr hpk, tbl, newT, rfl, hins,
                  by rw [hdb1, ← htx]⟩
        · exact absurd htx (by simp)
      exact ⟨hempty2, hn, main.1, main.2⟩

lemma runUpdate_ok_elim (db : Database) (tid : TableId)
    (pkc fcols : List String) (staged tbl : List Row)
    (h : runUpdate db tid pkc fcols staged = Except.ok tbl) :
    ((updateColsOf fcols pkc).isEmpty = true ∧ tbl = getTable db tid) ∨
    ((updateColsOf fcols pkc).isEmpty = false ∧
     tbl = (getTable db tid).map
       (updRow (schema tid).columns fcols pkc staged) ∧
     (getTable db tid).all (fun t =>
        match firstMatch (schema tid).columns fcols pkc staged t with
        | none => true
        | some _ =>
          rowNotNullOk (schema tid).columns
            (updRow (schema tid).columns fcols pkc staged t) &&
          rowFkOk db (schema tid).fks (schema tid).columns
            (updRow (schema tid).columns fcols pkc staged t)) = true ∧
     uniquesOk (schema tid) tbl = true ∧
     (!incomingNeeded tid (updateColsOf fcols pkc) ||
        incomingOk db tid tbl) = true) := by
  unfold runUpdate at h
  dsimp only at h
  split at h
  · rename_i hu
    left
    simp only [Except.ok.injEq] at h
    exact ⟨hu, h.symm⟩
  · rename_i hu
    right
    split at h
    · rename_i hchecks
      simp only [Except.ok.injEq] at h
      rw [Bool.and_eq_true, Bool.and_eq_true] at hchecks
      exact ⟨Bool.eq_false_iff.mpr hu, h.symm,
        hchecks.1.1, by rw [← h]; exact hchecks.1.2, by rw [← h]; exact hchecks.2⟩
    · exact absurd h (by simp)

lemma runUpdate_ok_intro (db : Database) (tid : TableId)
    (pkc fcols : List String) (staged : List Row)
    (hu : (updateColsOf fcols pkc).isEmpty = false)
    (hchanged : (getTable db tid).all (fun t =>
        match firstMatch (schema tid).columns fcols pkc staged t with
        | none => true
        | some _ =>
          rowNotNullOk (schema tid).columns
            (updRow (schema tid).columns fcols pkc staged t) &&
          rowFkOk db (schema tid).fks (schema tid).columns
            (updRow (schema tid).columns fcols pkc staged t)) = true)
    (huniq : uniquesOk (schema tid)
      ((getTable db tid).map (updRow (schema tid).columns fcols pkc staged))
      = true)
    (hinc : (!incomingNeeded tid (updateColsOf fcols pkc) ||
        incomingOk db tid
          ((getTable db tid).map
            (updRow (schema tid).columns fcols pkc staged))) = true) :
    runUpdate db tid pkc fcols staged = Except.ok
      ((getTable db tid).map (updRow (schema tid).columns fcols pkc staged))
    := by
  unfold runUpdate
  dsimp only
  rw [hu]
  simp only [Bool.false_eq_true, if_false]
  rw [if_pos (by rw [hchanged, huniq, hinc]; rfl)]

lemma runInsert_ok_elim (db : Database) (tid : TableId)
    (pkc fcols : List String) (staged tbl newT : List Row)
    (h : runInsert db tid pkc fcols staged tbl = Except.ok newT) :
    newT = tbl ++ (toInsert (schema tid).columns fcols pkc tbl staged).map
        (storedOf (schema tid).columns fcols) ∧
    ((toInsert (schema tid).columns fcols pkc tbl staged).map
        (storedOf (schema tid).columns fcols)).all (fun r =>
      rowNotNullOk (schema tid).columns r &&
      rowFkOk db (schema tid).fks (schema tid).columns r) = true ∧
    uniquesOk (schema tid) newT = true := by
  unfold runInsert at h
  dsimp only at h
  split at h
  · rename_i hchecks
    simp only [Except.ok.injEq] at h
    rw [Bool.and_eq_true] at hchecks
    exact ⟨h.symm, hchecks.1, by rw [← h]; exact hchecks.2⟩
  · exact absurd h (by simp)

lemma runInsert_ok_intro (db : Database) (tid : TableId)
    (pkc fcols : List String) (staged tbl : List Row)
    (hrows : ((toInsert (schema tid).columns fcols pkc tbl staged).map
        (storedOf (schema tid).columns fcols)).all (fun r =>
      rowNotNullOk (schema tid).columns r &&
      rowFkOk db (schema tid).fks (schema tid).columns r) = true)
    (huniq : uniquesOk (schema tid)
      (tbl ++ (toInsert (schema tid).columns fcols pkc tbl staged).map
        (storedOf (schema tid).columns fcols)) = true) :
    runInsert db tid pkc fcols staged tbl = Except.ok
      (tbl ++ (toInsert (schema tid).columns fcols pkc tbl staged).map
        (storedOf (schema tid).columns fcols)) := by
  unfold runInsert
  dsimp only
  rw [if_pos (by rw [hrows, huniq]; rfl)]

lemma runInsertAll_ok_elim (db : Database) (tid : TableId)
    (fcols : List String) (staged newT : List Row)
    (h : runInsertAll db tid fcols staged = Except.ok newT) :
    newT = getTable db tid ++ staged.map (storedOf (schema tid).columns fcols) ∧
    (staged.map (storedOf (schema tid).columns fcols)).all (fun r =>
      rowNotNullOk (schema tid).columns r &&
      rowFkOk db (schema tid).fks (schema tid).columns r) = true ∧
    uniquesOk (schema tid) newT = true := by
  unfold runInsertAll at h
  dsimp only at h
  split at h
  · rename_i hchecks
    simp only [Except.ok.injEq] at h
    rw [Bool.and_eq_true] at hchecks
    exact ⟨h.symm, hchecks.1, by rw [← h]; exact hchecks.2⟩
  · exact absurd h (by simp)

lemma guardOk_elim (tid : TableId) (pkc fcols : List String)
    (h : guardOk tid pkc fcols = true) :
    nodupB fcols = true ∧
    (∀ c ∈ fcols, hasCol (schema tid).columns c = true) ∧
    (pkc ≠ [] → (∀ c ∈ pkc, memS fcols c = true) ∧
      (∀ c ∈ pkc, hasCol (schema tid).columns c = true)) := by
  unfold guardOk at h
  rw [Bool.and_eq_true, Bool.and_eq_true, Bool.or_eq_true] at h
  obtain ⟨⟨hnd, hcols⟩, hpk⟩ := h
  refine ⟨hnd, ?_, ?_⟩
  · intro c hc
    exact (List.all_eq_true.mp hcols) c hc
  · intro hne
    rcases hpk with hpk | hpk
    · exact absurd (List.isEmpty_iff.mp hpk) hne
    · rw [Bool.and_eq_true] at hpk
      exact ⟨fun c hc => (List.all_eq_true.mp hpk.1) c hc,
        fun c hc => (List.all_eq_true.mp hpk.2) c hc⟩

/-! ## Claim theorems -/

/-- Claim C1: whenever upsert_dataframe raises (in particular on a store
constraint violation at one of its two DML statements), the target table -
indeed the whole store - is exactly as it was before the call: the
transaction is rolled back, no prefix of the batch remains applied. -/
theorem upsert_raises_leaves_store_unchanged (db : Database) (tid : TableId)
    (pkc : List String) (df : Frame) (e : String)
    (h : (upsert_dataframe db tid pkc df).2 = Except.error e) :
    (upsert_dataframe db tid pkc df).1 = db :=
  upsert_error_rollback db tid pkc df e h

/-- Witness for C1: a two-row disciplines batch whose second row violates
the sport_id foreign key raises, and the store is unchanged. -/
theorem upsert_raises_leaves_store_unchanged_witness :
    (upsert_dataframe dbSportsW TableId.disciplines ["discipline_id"]
        dfDiscW).2 =
      Except.error "constraint failed during INSERT on disciplines" ∧
    (upsert_dataframe dbSportsW TableId.disciplines ["discipline_id"]
        dfDiscW).1 = dbSportsW :=
  ⟨by rfl, upsert_raises_leaves_store_unchanged dbSportsW
    TableId.disciplines ["discipline_id"] dfDiscW
    "constraint failed during INSERT on disciplines" (by rfl)⟩

/-- Claim C2 counterexample: a batch whose row has a NULL primary-key value
is NOT rejected: upsert_dataframe performs no null-key validation, SQLite
accepts NULL in a TEXT PRIMARY KEY column, the call returns 1 and the
store has changed. -/
theorem upsert_null_pk_not_rejected :
    (upsert_dataframe emptyDb TableId.countries ["country_id"]
        dfNullPkW).2 = Except.ok 1 ∧
    (upsert_dataframe emptyDb TableId.countries ["country_id"]
        dfNullPkW).1 ≠ emptyDb :=
  ⟨by rfl, by decide⟩

/-- Claim C9: the export rebuild only reads the canonical store (SCHEMA_SQL
holds nothing but CREATE ... IF NOT EXISTS statements, and the export loop
only issues SELECTs): every table of an existing master store is unchanged
by build_multi_database_architecture. -/
theorem build_architecture_preserves_store (db : Database)
    (compBase lineBase : List (String × CsvFile)) (tid : TableId) :
    getTable (build_multi_database_architecture (some db) compBase
      lineBase).master tid = getTable db tid := rfl

/-- Claim C5: run_all_checks reports seven checks; each check is ok iff its
invalid-row count is zero; the aggregate passed is true iff every check is
ok; and a stored event whose competition_id matches no competition makes
the "events.competition_id exists" check report invalid rows (hence not
ok) and forces passed to be false. -/
theorem run_all_checks_correct (db : Database) :
    (run_all_checks db).checks_total = 7 ∧
    (∀ c ∈ (run_all_checks db).checks, c.ok = true ↔ c.invalid_rows = 0) ∧
    ((run_all_checks db).passed = true ↔
      ∀ c ∈ (run_all_checks db).checks, c.ok = true) ∧
    (∀ ev ∈ db.events,
      (∀ comp ∈ db.competitions,
        sqlEq (colVal (schema TableId.events).columns ev "competition_id")
          (colVal (schema TableId.competitions).columns comp
            "competition_id") = false) →
      (∃ c ∈ (run_all_checks db).checks,
        c.check = "events.competition_id exists" ∧ 0 < c.invalid_rows ∧
        c.ok = false) ∧
      (run_all_checks db).passed = false) := by
  have hchecks : ∀ c ∈ (run_all_checks db).checks,
      c.ok = (c.invalid_rows == 0) := by
    intro c hc
    simp only [run_all_checks, run_fk_integrity_checks, run_sanity_checks,
      List.mem_append, List.mem_map] at hc
    rcases hc with ⟨p, _, he⟩ | ⟨p, _, he⟩ <;> rw [← he]
  have hpassed : (run_all_checks db).passed = true ↔
      ∀ c ∈ (run_all_checks db).checks, c.ok = true := by
    show (((run_all_checks db).checks.filter
        (fun c => !c.ok)).length == 0) = true ↔ _
    rw [beq_iff_eq, List.length_eq_zero, List.filter_eq_nil_iff]
    constructor
    · intro h c hc
      have := h c hc
      simp only [Bool.not_eq_true'] at this
      simpa using this
    · intro h c hc
      rw [h c hc]
      decide
  refine ⟨rfl, ?_, hpassed, ?_⟩
  · intro c hc
    rw [hchecks c hc, beq_iff_eq]
  · intro ev hev hdangle
    have hmemf : ev ∈ (getTable db TableId.events).filter (fun r =>
        !((getTable db TableId.competitions).any (fun p =>
          sqlEq (colVal (schema TableId.events).columns r "competition_id")
            (colVal (schema TableId.competitions).columns p
              "competition_id")))) := by
      rw [List.mem_filter]
      refine ⟨hev, ?_⟩
      have hany : (getTable db TableId.competitions).any (fun p =>
          sqlEq (colVal (schema TableId.events).columns ev "competition_id")
            (colVal (schema TableId.competitions).columns p
              "competition_id")) = false := by
        rw [List.any_eq_false]
        intro p hp
        rw [hdangle p hp]
        decide
      rw [hany]
      rfl
    have hcount : 0 < fkInvalidCount db TableId.events "competition_id"
        TableId.competitions "competition_id" :=
      List.length_pos.mpr (List.ne_nil_of_mem hmemf)
    have hokf : (fkInvalidCount db TableId.events "competition_id"
        TableId.competitions "competition_id" == 0) = false := by
      rw [beq_eq_false_iff_ne]
      omega
    set c3 : CheckResult :=
      { check := "events.competition_id exists",
        invalid_rows := fkInvalidCount db TableId.events "competition_id"
          TableId.competitions "competition_id",
        ok := fkInvalidCount db TableId.events "competition_id"
          TableId.competitions "competition_id" == 0 } with hc3
    have hmemc : c3 ∈ (run_all_checks db).checks := by
      simp only [run_all_checks, run_fk_integrity_checks,
        run_sanity_checks, List.map, List.mem_append, List.mem_cons]
      left
      right
      right
      left
      trivial
    refine ⟨⟨c3, hmemc, rfl, hcount, hokf⟩, ?_⟩
    have hmemfail : c3 ∈ (run_all_checks db).checks.filter
        (fun c => !c.ok) := by
      rw [List.mem_filter]
      exact ⟨hmemc, by rw [show c3.ok = false from hokf]; rfl⟩
    show (((run_all_checks db).checks.filter
        (fun c => !c.ok)).length == 0) = false
    rw [beq_eq_false_iff_ne]
    have := List.length_pos.mpr (List.ne_nil_of_mem hmemfail)
    omega

/-- Witness for C5: with one stored dangling event the report fails and
names the events check as not ok with a positive invalid count. -/
theorem run_all_checks_correct_witness :
    (run_all_checks dbEventsW).passed = false ∧
    ∃ c ∈ (run_all_checks dbEventsW).checks,
      c.check = "events.competition_id exists" ∧ 0 < c.invalid_rows ∧
      c.ok = false := by
  have h := (run_all_checks_correct dbEventsW).2.2.2
    [Value.text "e1", Value.text "c1", Value.null, Value.null,
     Value.null, Value.null]
    (by decide) (by decide)
  exact ⟨h.2, h.1⟩

/-- Claim C2 (amended): upsert_dataframe performs no null-primary-key
validation at all.  A row whose pk value is NULL matches no stored row
(SQL equality) and passes the NOT EXISTS filter, and since SQLite accepts
NULL in a TEXT PRIMARY KEY column, the row is inserted with a NULL key:
the call succeeds, returns the batch length, and the store HAS changed -
nothing is rejected before store interaction.  (Only a schema-level NOT
NULL column would make the store itself reject the row at commit.) -/
theorem upsert_null_pk_inserted (db : Database) (name : String)
    (h : uniquesOk (schema TableId.countries) db.countries = true) :
    upsert_dataframe db TableId.countries ["country_id"]
      ⟨["country_id", "name_en"], [[Value.null, Value.text name]]⟩ =
    ({ db with countries := db.countries ++
        [[Value.null, Value.null, Value.null, Value.text name,
          Value.null]] },
     Except.ok 1) := by
  have hnomatch : ∀ t : Row,
      pkMatchB (schema TableId.countries).columns ["country_id", "name_en"]
        ["country_id"] t [Value.null, Value.text name] = false := by
    intro t
    have hfv : frameVal ["country_id", "name_en"]
        [Value.null, Value.text name] "country_id" = Value.null := rfl
    simp [pkMatchB, hfv, sqlEq_null_right]
  have hfm : ∀ t : Row,
      firstMatch (schema TableId.countries).columns
        ["country_id", "name_en"] ["country_id"]
        [[Value.null, Value.text name]] t = none := by
    intro t
    apply List.find?_eq_none.mpr
    intro s hs
    rw [List.mem_singleton] at hs
    subst hs
    rw [hnomatch t]
    decide
  have hid : ∀ t : Row,
      updRow (schema TableId.countries).columns ["country_id", "name_en"]
        ["country_id"] [[Value.null, Value.text name]] t = t := by
    intro t
    simp [updRow, hfm t]
  have hU : (getTable db TableId.countries).map
      (updRow (schema TableId.countries).columns ["country_id", "name_en"]
        ["country_id"] [[Value.null, Value.text name]]) =
      getTable db TableId.countries := by
    rw [List.map_congr_left (fun t _ => hid t)]
    simp
  have hupd : runUpdate db TableId.countries ["country_id"]
      ["country_id", "name_en"] [[Value.null, Value.text name]] =
      Except.ok db.countries := by
    have hres := runUpdate_ok_intro db TableId.countries ["country_id"]
      ["country_id", "name_en"] [[Value.null, Value.text name]]
      (by decide)
      (by
        rw [List.all_eq_true]
        intro t ht
        rw [hfm t])
      (by rw [hU]; exact h)
      (by
        rw [show incomingNeeded TableId.countries
          (updateColsOf ["country_id", "name_en"] ["country_id"]) = false
          from by decide]
        rfl)
    rw [hU] at hres
    exact hres
  have hstored : storedOf (schema TableId.countries).columns
      ["country_id", "name_en"] [Value.null, Value.text name] =
      [Value.null, Value.null, Value.null, Value.text name, Value.null] :=
    rfl
  have hto : toInsert (schema TableId.countries).columns
      ["country_id", "name_en"] ["country_id"] db.countries
      [[Value.null, Value.text name]] = [[Value.null, Value.text name]] := by
    unfold toInsert
    have hanyf : (db.countries.any fun t =>
        pkMatchB (schema TableId.countries).columns
          ["country_id", "name_en"] ["country_id"] t
          [Value.null, Value.text name]) = false := by
      rw [List.any_eq_false]
      intro t ht
      rw [hnomatch t]
      decide
    simp [List.filter_cons, hanyf]
  have hnodup : noDupOn (schema TableId.countries).columns
      (schema TableId.countries).pk (db.countries ++
        [[Value.null, Value.null, Value.null, Value.text name,
          Value.null]]) = true := by
    rw [noDupOn_iff, List.pairwise_append]
    have h1 := (Bool.and_eq_true _ _).mp h
    refine ⟨(noDupOn_iff _ _ _).mp h1.1, by simp, ?_⟩
    intro a _ b hb
    rw [List.mem_singleton] at hb
    subst hb
    have hcv : colVal (schema TableId.countries).columns
        [Value.null, Value.null, Value.null, Value.text name, Value.null]
        "country_id" = Value.null := rfl
    rw [show conflictsOn (schema TableId.countries).columns
      (schema TableId.countries).pk a
      [Value.null, Value.null, Value.null, Value.text name, Value.null] =
      (sqlEq (colVal (schema TableId.countries).columns a "country_id")
        (colVal (schema TableId.countries).columns
          [Value.null, Value.null, Value.null, Value.text name, Value.null]
          "country_id") && true) from rfl]
    rw [hcv, sqlEq_null_right]
    rfl
  have hins : runInsert db TableId.countries ["country_id"]
      ["country_id", "name_en"] [[Value.null, Value.text name]]
      db.countries = Except.ok (db.countries ++
        [[Value.null, Value.null, Value.null, Value.text name,
          Value.null]]) := by
    have hres := runInsert_ok_intro db TableId.countries ["country_id"]
      ["country_id", "name_en"] [[Value.null, Value.text name]]
      db.countries
      (by
        rw [hto]
        simp only [List.map, hstored]
        rw [List.all_cons, List.all_nil]
        rfl)
      (by
        rw [hto]
        simp only [List.map, hstored]
        unfold uniquesOk
        rw [hnodup]
        rfl)
    rw [hto] at hres
    simp only [List.map, hstored] at hres
    exact hres
  have htx : upsertTx db TableId.countries ["country_id"]
      ⟨["country_id", "name_en"], [[Value.null, Value.text name]]⟩ =
      Except.ok ({ db with countries := db.countries ++
        [[Value.null, Value.null, Value.null, Value.text name,
          Value.null]] }) := by
    unfold upsertTx
    rw [if_pos (show guardOk TableId.countries ["country_id"]
      (Frame.mk ["country_id", "name_en"]
        [[Value.null, Value.text name]]).cols = true from rfl)]
    rw [if_neg (show ¬(List.isEmpty ["country_id"] = true) from by decide)]
    rw [show (Frame.mk ["country_id", "name_en"]
      [[Value.null, Value.text name]]).cols = ["country_id", "name_en"]
      from rfl]
    rw [show (Frame.mk ["country_id", "name_en"]
      [[Value.null, Value.text name]]).rows =
      [[Value.null, Value.text name]] from rfl]
    rw [hupd]
    dsimp only
    rw [hins]
    rfl
  unfold upsert_dataframe
  rw [if_neg (by simp)]
  rw [htx]
  rfl

/-- Witness for the amended C2: on the fresh store the null-keyed row is
inserted and the call returns 1. -/
theorem upsert_null_pk_inserted_witness :
    upsert_dataframe emptyDb TableId.countries ["country_id"]
      ⟨["country_id", "name_en"], [[Value.null, Value.text "X"]]⟩ =
    ({ emptyDb with countries :=
        [[Value.null, Value.null, Value.null, Value.text "X",
          Value.null]] },
     Except.ok 1) := by
  have h := upsert_null_pk_inserted emptyDb "X" (by decide)
  simpa using h

lemma fkConsistentB_iff (db : Database) :
    fkConsistentB db = true ↔ ∀ ct : TableId, ∀ r ∈ getTable db ct,
      rowFkOk db (schema ct).fks (schema ct).columns r = true := by
  unfold fkConsistentB
  rw [List.all_eq_true]
  constructor
  · intro h ct r hr
    exact (List.all_eq_true.mp (h ct (mem_allTables ct))) r hr
  · intro h ct _
    rw [List.all_eq_true]
    exact h ct

lemma rowFkOk_iff (db : Database) (fks : List ForeignKey)
    (cols : List ColumnSpec) (r : Row) :
    rowFkOk db fks cols r = true ↔ ∀ fk ∈ fks,
      colVal cols r fk.col = Value.null ∨
      ∃ p ∈ getTable db fk.parent,
        sqlEq (colVal cols r fk.col)
          (colVal (schema fk.parent).columns p fk.parentCol) = true := by
  unfold rowFkOk
  rw [List.all_eq_true]
  constructor <;> intro h fk hfk
  · have h1 := h fk hfk
    rw [Bool.or_eq_true, beq_iff_eq, List.any_eq_true] at h1
    exact h1
  · have h1 := h fk hfk
    rw [Bool.or_eq_true, beq_iff_eq, List.any_eq_true]
    exact h1

lemma incomingOk_iff (db : Database) (tid : TableId) (newRows : List Row) :
    incomingOk db tid newRows = true ↔ ∀ ct : TableId,
      ∀ fk ∈ (schema ct).fks, fk.parent = tid → ∀ r ∈ getTable db ct,
        colVal (schema ct).columns r fk.col = Value.null ∨
        ∃ p ∈ newRows, sqlEq (colVal (schema ct).columns r fk.col)
          (colVal (schema tid).columns p fk.parentCol) = true := by
  unfold incomingOk
  rw [List.all_eq_true]
  constructor
  · intro h ct fk hfk hpar r hr
    have h1 := (List.all_eq_true.mp (h ct (mem_allTables ct))) fk hfk
    rw [Bool.or_eq_true] at h1
    rcases h1 with h1 | h1
    · rw [bne_iff_ne] at h1
      exact absurd hpar h1
    · have h2 := (List.all_eq_true.mp h1) r hr
      rw [Bool.or_eq_true, beq_iff_eq, List.any_eq_true] at h2
      exact h2
  · intro h ct _
    rw [List.all_eq_true]
    intro fk hfk
    rw [Bool.or_eq_true]
    by_cases hpar : fk.parent = tid
    · right
      rw [List.all_eq_true]
      intro r hr
      rw [Bool.or_eq_true, beq_iff_eq, List.any_eq_true]
      exact h ct fk hfk hpar r hr
    · left
      rw [bne_iff_ne]
      exact hpar

lemma incomingNeeded_false_elim (tid : TableId) (updCols : List String)
    (h : incomingNeeded tid updCols = false) :
    ∀ ct : TableId, ∀ fk ∈ (schema ct).fks, fk.parent = tid →
      memS updCols fk.parentCol = false := by
  intro ct fk hfk hpar
  cases hm : memS updCols fk.parentCol with
  | false => rfl
  | true =>
    have hT : incomingNeeded tid updCols = true := by
      unfold incomingNeeded
      rw [List.any_eq_true]
      refine ⟨ct, mem_allTables ct, ?_⟩
      rw [List.any_eq_true]
      refine ⟨fk, hfk, ?_⟩
      rw [hpar, hm]
      simp
    rw [h] at hT
    exact absurd hT (by decide)

lemma colVal_updRow_not_upd (tcols : List ColumnSpec)
    (fcols pkc : List String) (staged : List Row) (t : Row) (c : String)
    (h : memS (updateColsOf fcols pkc) c = false) :
    colVal tcols (updRow tcols fcols pkc staged t) c = colVal tcols t c := by
  simp only [updRow]
  split
  · rfl
  · split
    · rfl
    · exact colVal_updValues_not_upd _ fcols _ tcols t c h

lemma changedOk_elim (db : Database) (tid : TableId)
    (pkc fcols : List String) (staged : List Row)
    (h : (getTable db tid).all (fun t =>
        match firstMatch (schema tid).columns fcols pkc staged t with
        | none => true
        | some _ =>
          rowNotNullOk (schema tid).columns
            (updRow (schema tid).columns fcols pkc staged t) &&
          rowFkOk db (schema tid).fks (schema tid).columns
            (updRow (schema tid).columns fcols pkc staged t)) = true) :
    ∀ t ∈ getTable db tid, ∀ s,
      firstMatch (schema tid).columns fcols pkc staged t = some s →
      rowNotNullOk (schema tid).columns
        (updRow (schema tid).columns fcols pkc staged t) = true ∧
      rowFkOk db (schema tid).fks (schema tid).columns
        (updRow (schema tid).columns fcols pkc staged t) = true := by
  intro t ht s hs
  have h1 := (List.all_eq_true.mp h) t ht
  rw [hs] at h1
  exact (Bool.and_eq_true _ _).mp h1

/-- Shared shape of the foreign-key preservation argument: the store after
replacing table tid by tbl ++ ins stays consistent, provided the rows of
tbl and ins are themselves fk-consistent against db and every child row
referencing tid still finds a parent within tbl. -/
lemma fk_preserved_core (db : Database) (tid : TableId) (tbl ins : List Row)
    (hcons : fkConsistentB db = true)
    (htbl : ∀ r ∈ tbl,
      rowFkOk db (schema tid).fks (schema tid).columns r = true)
    (hrows : ∀ r ∈ ins,
      rowFkOk db (schema tid).fks (schema tid).columns r = true)
    (hpreserve : ∀ (ct : TableId), ∀ fk ∈ (schema ct).fks,
      fk.parent = tid → ∀ r ∈ getTable db ct,
      colVal (schema ct).columns r fk.col = Value.null ∨
      ∃ p ∈ tbl, sqlEq (colVal (schema ct).columns r fk.col)
        (colVal (schema tid).columns p fk.parentCol) = true) :
    fkConsistentB (setTable db tid (tbl ++ ins)) = true := by
  have hcons2 := (fkConsistentB_iff db).mp hcons
  rw [fkConsistentB_iff]
  intro ct r hr
  by_cases hct : ct = tid
  · subst hct
    rw [getTable_setTable_self] at hr
    rw [rowFkOk_setTable db ct (tbl ++ ins) (schema ct).fks
      (schema ct).columns r (no_self_fk ct)]
    rcases List.mem_append.mp hr with hrT | hrI
    · exact htbl r hrT
    · exact hrows r hrI
  · rw [getTable_setTable_ne db tid ct (tbl ++ ins) hct] at hr
    rw [rowFkOk_iff]
    intro fk hfk
    by_cases hpar : fk.parent = tid
    · rcases hpreserve ct fk hfk hpar r hr with hnull | ⟨p, hp, hsql⟩
      · exact Or.inl hnull
      · right
        rw [hpar]
        refine ⟨p, ?_, hsql⟩
        rw [getTable_setTable_self]
        exact List.mem_append_left ins hp
    · have hold := (rowFkOk_iff db (schema ct).fks (schema ct).columns
        r).mp (hcons2 ct r hr) fk hfk
      rcases hold with hnull | ⟨p, hp, hsql⟩
      · exact Or.inl hnull
      · right
        refine ⟨p, ?_, hsql⟩
        rw [getTable_setTable_ne db tid fk.parent (tbl ++ ins) hpar]
        exact hp

/-- A successful upsert keeps every foreign key of the store intact. -/
lemma upsert_preserves_fk (db : Database) (tid : TableId)
    (pkc : List String) (df : Frame) (db2 : Database) (n : Nat)
    (hcons : fkConsistentB db = true)
    (h : upsert_dataframe db tid pkc df = (db2, Except.ok n)) :
    fkConsistentB db2 = true := by
  have hcons2 := (fkConsistentB_iff db).mp hcons
  rcases upsert_ok_elim db tid pkc df db2 n h with
    ⟨_, hdb, _⟩ | ⟨_, _, hguard, hbr⟩
  · rw [hdb]; exact hcons
  · rcases hbr with ⟨hpk, newT, hrun, hdb2⟩ | ⟨hpk, tbl, newT, hupd, hins, hdb2⟩
    · obtain ⟨hnewT, hrows, _⟩ :=
        runInsertAll_ok_elim db tid df.cols df.rows newT hrun
      rw [hdb2, hnewT]
      apply fk_preserved_core db tid (getTable db tid) _ hcons
        (fun r hr => hcons2 tid r hr)
      · intro r hr
        have h1 := (List.all_eq_true.mp hrows) r hr
        exact ((Bool.and_eq_true _ _).mp h1).2
      · intro ct fk hfk hpar r hr
        rcases (rowFkOk_iff db (schema ct).fks (schema ct).columns r).mp
          (hcons2 ct r hr) fk hfk with hnull | ⟨p, hp, hsql⟩
        · exact Or.inl hnull
        · rw [hpar] at hp hsql
          exact Or.inr ⟨p, hp, hsql⟩
    · obtain ⟨hnewT, hrows, _⟩ :=
        runInsert_ok_elim db tid pkc df.cols df.rows tbl newT hins
      have hinsfk : ∀ r ∈ (toInsert (schema tid).columns df.cols pkc tbl
          df.rows).map (storedOf (schema tid).columns df.cols),
          rowFkOk db (schema tid).fks (schema tid).columns r = true := by
        intro r hr
        have h1 := (List.all_eq_true.mp hrows) r hr
        exact ((Bool.and_eq_true _ _).mp h1).2
      rcases runUpdate_ok_elim db tid pkc df.cols df.rows tbl hupd with
        ⟨hue, htbl⟩ | ⟨hue, htbl, hchanged, _, hinc⟩
      · -- update_cols empty: the UPDATE is skipped, tbl is the old table
        rw [hdb2, hnewT, htbl]
        apply fk_preserved_core db tid (getTable db tid) _ hcons
          (fun r hr => hcons2 tid r hr)
        · intro r hr
          apply hinsfk r
          rw [htbl]
          exact hr
        · intro ct fk hfk hpar r hr
          rcases (rowFkOk_iff db (schema ct).fks (schema ct).columns r).mp
            (hcons2 ct r hr) fk hfk with hnull | ⟨p, hp, hsql⟩
          · exact Or.inl hnull
          · rw [hpar] at hp hsql
            exact Or.inr ⟨p, hp, hsql⟩
      · -- proper UPDATE: tbl is the rewritten table
        rw [hdb2, hnewT, htbl]
        apply fk_preserved_core db tid
          ((getTable db tid).map (updRow (schema tid).columns df.cols pkc
            df.rows)) _ hcons
        · intro r hr
          rcases List.mem_map.mp hr with ⟨t, ht, hrt⟩
          cases hfm : firstMatch (schema tid).columns df.cols pkc df.rows t
          with
          | none =>
            have hid : updRow (schema tid).columns df.cols pkc df.rows t
                = t := by
              simp [updRow, hfm]
            rw [← hrt, hid]
            exact hcons2 tid t ht
          | some s =>
            rw [← hrt]
            exact (changedOk_elim db tid pkc df.cols df.rows hchanged
              t ht s hfm).2
        · intro r hr
          apply hinsfk r
          rw [htbl]
          exact hr
        · intro ct fk hfk hpar r hr
          cases hneed : incomingNeeded tid (updateColsOf df.cols pkc) with
          | true =>
            rw [hneed] at hinc
            have hincok : incomingOk db tid ((getTable db tid).map
                (updRow (schema tid).columns df.cols pkc df.rows)) = true
                := by
              rw [← htbl]
              simpa using hinc
            exact (incomingOk_iff db tid _).mp hincok ct fk hfk hpar r hr
          | false =>
            have hnotupd := incomingNeeded_false_elim tid
              (updateColsOf df.cols pkc) hneed ct fk hfk hpar
            rcases (rowFkOk_iff db (schema ct).fks (schema ct).columns
              r).mp (hcons2 ct r hr) fk hfk with hnull | ⟨p, hp, hsql⟩
            · exact Or.inl hnull
            · rw [hpar] at hp hsql
              right
              refine ⟨updRow (schema tid).columns df.cols pkc df.rows p,
                List.mem_map_of_mem _ hp, ?_⟩
              rw [colVal_updRow_not_upd (schema tid).columns df.cols pkc
                df.rows p fk.parentCol hnotupd]
              exact hsql

/-- Claim C6: in every store reachable from a freshly created schema by
successful upsert_dataframe calls, every non-null foreign-key value of
every table (discipline→sport, competition→sport/source, event→
competition/discipline, participant→country, result→event/participant,
raw_import→source, sport_federation→sport) references an existing parent
row. -/
theorem reachable_stores_fk_consistent (db : Database) (h : Reachable db) :
    ∀ tid : TableId, ∀ r ∈ getTable db tid, ∀ fk ∈ (schema tid).fks,
      colVal (schema tid).columns r fk.col ≠ Value.null →
      ∃ p ∈ getTable db fk.parent,
        sqlEq (colVal (schema tid).columns r fk.col)
          (colVal (schema fk.parent).columns p fk.parentCol) = true := by
  have hB : fkConsistentB db = true := by
    induction h with
    | init => decide
    | step db0 tid pkc df db2 n hr hup ih =>
      exact upsert_preserves_fk db0 tid pkc df db2 n ih hup
  intro tid r hr fk hfk hnn
  have h1 := (rowFkOk_iff db (schema tid).fks (schema tid).columns r).mp
    ((fkConsistentB_iff db).mp hB tid r hr) fk hfk
  rcases h1 with hnull | hex
  · exact absurd hnull hnn
  · exact hex

/-- Witness for C6: in the store reached by two successful upserts, the
stored discipline's sport_id finds its parent sport row. -/
theorem reachable_stores_fk_consistent_witness :
    ∃ p ∈ getTable dbReach2W TableId.sports,
      sqlEq (colVal (schema TableId.disciplines).columns
          [Value.text "d1", Value.text "D1", Value.text "d1",
           Value.text "s1", Value.null, Value.null, Value.text "t"]
          "sport_id")
        (colVal (schema TableId.sports).columns p "sport_id") = true := by
  have hreach : Reachable dbReach2W :=
    Reachable.step dbReach1W TableId.disciplines ["discipline_id"]
      dfDiscOkW dbReach2W 1
      (Reachable.step emptyDb TableId.sports ["sport_id"] dfSportsW
        dbReach1W 1 Reachable.init (by rfl))
      (by rfl)
  exact reachable_stores_fk_consistent dbReach2W hreach
    TableId.disciplines
    [Value.text "d1", Value.text "D1", Value.text "d1", Value.text "s1",
     Value.null, Value.null, Value.text "t"]
    (by decide)
    ⟨"sport_id", TableId.sports, "sport_id"⟩ (by decide) (by decide)

/-- Claim C4: on a successful merge (with a non-empty pk list) the target
table becomes exactly the old rows rewritten by the bulk UPDATE followed
by the freshly inserted rows; and the rewrite overwrites every update
column (the non-key batch columns) of a matched row with the first
matching staged row's value - an explicit NULL included - while leaving
every other column untouched. -/
theorem upsert_last_write_wins (db : Database) (tid : TableId)
    (pkc : List String) (df : Frame) (db1 : Database) (n : Nat)
    (h : upsert_dataframe db tid pkc df = (db1, Except.ok n))
    (hpk : pkc ≠ []) :
    (∃ inserted, getTable db1 tid =
      (getTable db tid).map
        (updRow (schema tid).columns df.cols pkc df.rows) ++ inserted) ∧
    (∀ t s c,
      firstMatch (schema tid).columns df.cols pkc df.rows t = some s →
      (memS (updateColsOf df.cols pkc) c = true →
        colVal (schema tid).columns
          (updRow (schema tid).columns df.cols pkc df.rows t) c =
        frameVal df.cols s c) ∧
      (memS (updateColsOf df.cols pkc) c = false →
        colVal (schema tid).columns
          (updRow (schema tid).columns df.cols pkc df.rows t) c =
        colVal (schema tid).columns t c)) := by
  constructor
  · rcases upsert_ok_elim db tid pkc df db1 n h with
      ⟨hemp, hdb, _⟩ | ⟨_, _, hguard, hbr⟩
    · refine ⟨[], ?_⟩
      rw [hdb, List.append_nil]
      rw [Bool.or_eq_true] at hemp
      have hid : ∀ t : Row,
          updRow (schema tid).columns df.cols pkc df.rows t = t := by
        intro t
        rcases hemp with hre | hce
        · rw [List.isEmpty_iff] at hre
          simp [updRow, hre, firstMatch]
        · rw [List.isEmpty_iff] at hce
          simp [updRow, hce, updateColsOf]
      rw [List.map_congr_left (fun t _ => hid t)]
      simp
    · rcases hbr with ⟨hpkE, _⟩ | ⟨_, tbl, newT, hupd, hins, hdb2⟩
      · exact absurd (List.isEmpty_iff.mp hpkE) hpk
      · obtain ⟨hnewT, _, _⟩ :=
          runInsert_ok_elim db tid pkc df.cols df.rows tbl newT hins
        rcases runUpdate_ok_elim db tid pkc df.cols df.rows tbl hupd with
          ⟨hue, htbl⟩ | ⟨_, htbl, _, _, _⟩
        · rw [hdb2, getTable_setTable_self, hnewT, htbl]
          have hid : ∀ t : Row,
              updRow (schema tid).columns df.cols pkc df.rows t = t := by
            intro t
            simp [updRow, hue]
          rw [List.map_congr_left (fun t _ => hid t)]
          simp
        · rw [hdb2, getTable_setTable_self, hnewT, htbl]
          exact ⟨_, rfl⟩
  · intro t s c hfm
    refine ⟨?_, fun hnm => colVal_updRow_not_upd (schema tid).columns
      df.cols pkc df.rows t c hnm⟩
    intro hmem
    obtain ⟨hfc, _⟩ := (memS_updateColsOf df.cols pkc c).mp hmem
    rcases upsert_ok_elim db tid pkc df db1 n h with
      ⟨hemp, _, _⟩ | ⟨_, _, hguard, _⟩
    · rw [Bool.or_eq_true] at hemp
      rcases hemp with hre | hce
      · rw [List.isEmpty_iff] at hre
        rw [firstMatch, hre] at hfm
        exact absurd hfm (by simp)
      · rw [List.isEmpty_iff] at hce
        rw [hce] at hfc
        exact absurd hfc (by simp [memS])
    · have hcols := (guardOk_elim tid pkc df.cols hguard).2.1
      have hhc : hasCol (schema tid).columns c = true :=
        hcols c ((memS_iff df.cols c).mp hfc)
      have hne : (updateColsOf df.cols pkc).isEmpty = false := by
        cases hni : updateColsOf df.cols pkc with
        | nil => rw [hni] at hmem; exact absurd hmem (by simp [memS])
        | cons a l => rfl
      have hru : updRow (schema tid).columns df.cols pkc df.rows t =
          updValues (updateColsOf df.cols pkc) df.cols s
            (schema tid).columns t := by
        simp [updRow, hne, hfm]
      rw [hru, colVal_updValues, hmem, hhc]
      rfl

/-- Witness for C4: the stored iso2 value "b" is overwritten by the
incoming explicit NULL. -/
theorem upsert_last_write_wins_witness :
    (∃ inserted, getTable dbLww2W TableId.countries =
      (getTable dbLwwW TableId.countries).map
        (updRow (schema TableId.countries).columns ["country_id", "iso2"]
          ["country_id"] [[Value.text "X", Value.null]]) ++ inserted) ∧
    colVal (schema TableId.countries).columns
      (updRow (schema TableId.countries).columns ["country_id", "iso2"]
        ["country_id"] [[Value.text "X", Value.null]]
        [Value.text "X", Value.text "b", Value.null, Value.text "N",
         Value.null]) "iso2" = Value.null := by
  have h := upsert_last_write_wins dbLwwW TableId.countries ["country_id"]
    dfLwwNullW dbLww2W 1 (by rfl) (by decide)
  refine ⟨h.1, ?_⟩
  have h2 := (h.2
    [Value.text "X", Value.text "b", Value.null, Value.text "N",
     Value.null]
    [Value.text "X", Value.null] "iso2" (by rfl)).1 (by decide)
  exact h2

lemma pkMatchB_congr_staged (tcols : List ColumnSpec)
    (fcols pkc : List String) (t r1 r2 : Row)
    (heq : ∀ c ∈ pkc, frameVal fcols r1 c = frameVal fcols r2 c) :
    pkMatchB tcols fcols pkc t r2 = pkMatchB tcols fcols pkc t r1 := by
  unfold pkMatchB
  exact all_congr_mem pkc _ _ (fun c hc => by rw [heq c hc])

lemma colVal_storedOf_mem (fcols : List String) (s : Row)
    (tcols : List ColumnSpec) (c : String)
    (hf : memS fcols c = true) (hh : hasCol tcols c = true) :
    colVal tcols (storedOf tcols fcols s) c = frameVal fcols s c := by
  rw [colVal_storedOf, hh, hf]
  simp

/-- Claim C10: a batch holding two rows that agree (non-null) on every
primary-key column, neither key already stored, makes upsert_dataframe
raise - the NOT EXISTS filter only checks staged rows against the target
table, so both duplicates pass it and the second inserted row violates
the PRIMARY KEY - and the target table is left unchanged. -/
theorem upsert_batch_duplicate_keys_rejected (db : Database)
    (tid : TableId) (df : Frame) (l1 l2 l3 : List Row) (r1 r2 : Row)
    (hrows : df.rows = l1 ++ r1 :: (l2 ++ r2 :: l3))
    (heq : ∀ c ∈ (schema tid).pk,
      frameVal df.cols r1 c = frameVal df.cols r2 c)
    (hnn : ∀ c ∈ (schema tid).pk, frameVal df.cols r1 c ≠ Value.null)
    (hfresh : ∀ t ∈ getTable db tid,
      pkMatchB (schema tid).columns df.cols (schema tid).pk t r1 = false) :
    (upsert_dataframe db tid (schema tid).pk df).1 = db ∧
    ∃ e, (upsert_dataframe db tid (schema tid).pk df).2 =
      Except.error e := by
  have hcne : df.cols ≠ [] := by
    obtain ⟨c, hc⟩ := List.exists_mem_of_ne_nil (schema tid).pk
      (schema_pk_ne_nil tid)
    intro hcol
    apply hnn c hc
    rw [hcol]
    rfl
  have hrne : df.rows ≠ [] := by
    rw [hrows]
    simp
  have hre : df.rows.isEmpty = false := by
    cases hr : df.rows with
    | nil => exact absurd hr hrne
    | cons a l => rfl
  have hce : df.cols.isEmpty = false := by
    cases hr : df.cols with
    | nil => exact absurd hr hcne
    | cons a l => rfl
  have hemp : (df.rows.isEmpty || df.cols.isEmpty) = false := by
    rw [hre, hce]
    rfl
  have hpkne : (schema tid).pk.isEmpty = false := by
    cases hp : (schema tid).pk with
    | nil => exact absurd hp (schema_pk_ne_nil tid)
    | cons a l => rfl
  have hkey : ∃ e, upsertTx db tid (schema tid).pk df =
      Except.error e := by
    unfold upsertTx
    cases hguard : guardOk tid (schema tid).pk df.cols with
    | false =>
      rw [if_neg (by decide)]
      exact ⟨_, rfl⟩
    | true =>
      rw [if_pos rfl, if_neg (by simp [hpkne])]
      cases hupd : runUpdate db tid (schema tid).pk df.cols df.rows with
      | error e => exact ⟨e, rfl⟩
      | ok tbl =>
        dsimp only
        cases hins : runInsert db tid (schema tid).pk df.cols df.rows
          tbl with
        | error e => exact ⟨e, rfl⟩
        | ok newT =>
          exfalso
          obtain ⟨hnewT, _, huniq⟩ :=
            runInsert_ok_elim db tid (schema tid).pk df.cols df.rows tbl
              newT hins
          obtain ⟨_, hcolsG, hpkG⟩ :=
            guardOk_elim tid (schema tid).pk df.cols hguard
          obtain ⟨hpkf, hpkh⟩ := hpkG (schema_pk_ne_nil tid)
          have htblkeys : ∀ u ∈ tbl,
              pkMatchB (schema tid).columns df.cols (schema tid).pk u r1
                = false := by
            rcases runUpdate_ok_elim db tid (schema tid).pk df.cols
              df.rows tbl hupd with ⟨_, htbl⟩ | ⟨_, htbl, _, _, _⟩
            · rw [htbl]; exact hfresh
            · rw [htbl]
              intro u hu
              rcases List.mem_map.mp hu with ⟨t, ht, rfl⟩
              rw [pkMatchB_updRow]
              exact hfresh t ht
          have htblkeys2 : ∀ u ∈ tbl,
              pkMatchB (schema tid).columns df.cols (schema tid).pk u r2
                = false := by
            intro u hu
            rw [pkMatchB_congr_staged (schema tid).columns df.cols
              (schema tid).pk u r1 r2 heq]
            exact htblkeys u hu
          have hp1 : (!(tbl.any (fun t => pkMatchB (schema tid).columns
              df.cols (schema tid).pk t r1))) = true := by
            have hany : (tbl.any (fun t => pkMatchB (schema tid).columns
                df.cols (schema tid).pk t r1)) = false := by
              rw [List.any_eq_false]
              intro t ht
              rw [htblkeys t ht]
              decide
            rw [hany]
            rfl
          have hp2 : (!(tbl.any (fun t => pkMatchB (schema tid).columns
              df.cols (schema tid).pk t r2))) = true := by
            have hany : (tbl.any (fun t => pkMatchB (schema tid).columns
                df.cols (schema tid).pk t r2)) = false := by
              rw [List.any_eq_false]
              intro t ht
              rw [htblkeys2 t ht]
              decide
            rw [hany]
            rfl
          have hsub : List.Sublist [r1, r2] df.rows := by
            rw [hrows]
            have h2 : List.Sublist [r2] (l2 ++ r2 :: l3) :=
              List.Sublist.trans
                (List.Sublist.cons₂ r2 (List.nil_sublist l3))
                (List.sublist_append_right l2 (r2 :: l3))
            exact List.Sublist.trans (List.Sublist.cons₂ r1 h2)
              (List.sublist_append_right l1 _)
          have hsub2 : List.Sublist [r1, r2]
              (toInsert (schema tid).columns df.cols (schema tid).pk tbl
                df.rows) := by
            unfold toInsert
            have hf := List.Sublist.filter (fun s => !(tbl.any (fun t =>
              pkMatchB (schema tid).columns df.cols (schema tid).pk t s)))
              hsub
            rw [show List.filter (fun s => !(tbl.any (fun t =>
              pkMatchB (schema tid).columns df.cols (schema tid).pk t s)))
              [r1, r2] = [r1, r2] from by
                simp [List.filter_cons, hp1, hp2]] at hf
            exact hf
          have hsub3 : List.Sublist
              [storedOf (schema tid).columns df.cols r1,
               storedOf (schema tid).columns df.cols r2] newT := by
            rw [hnewT]
            apply List.Sublist.trans _ (List.sublist_append_right tbl _)
            simpa using
              List.Sublist.map (storedOf (schema tid).columns df.cols)
                hsub2
          have hpw := (noDupOn_iff (schema tid).columns (schema tid).pk
            newT).mp ((Bool.and_eq_true _ _).mp huniq).1
          have hpw2 := List.Pairwise.sublist hsub3 hpw
          rw [List.pairwise_cons] at hpw2
          have hconf := hpw2.1 (storedOf (schema tid).columns df.cols r2)
            (List.mem_singleton.mpr rfl)
          have hconfT : conflictsOn (schema tid).columns (schema tid).pk
              (storedOf (schema tid).columns df.cols r1)
              (storedOf (schema tid).columns df.cols r2) = true := by
            unfold conflictsOn
            rw [List.all_eq_true]
            intro c hc
            rw [colVal_storedOf_mem df.cols r1 (schema tid).columns c
                (hpkf c hc) (hpkh c hc),
              colVal_storedOf_mem df.cols r2 (schema tid).columns c
                (hpkf c hc) (hpkh c hc),
              ← heq c hc]
            exact sqlEq_self _ (hnn c hc)
          rw [hconfT] at hconf
          exact absurd hconf (by decide)
  obtain ⟨e, he⟩ := hkey
  have h2 : (upsert_dataframe db tid (schema tid).pk df).2 =
      Except.error e := by
    unfold upsert_dataframe
    rw [if_neg (by simp [hemp]), he]
  exact ⟨upsert_error_rollback db tid (schema tid).pk df e h2, e, h2⟩

/-- Witness for C10: the duplicate-key batch on the fresh store raises and
leaves the store empty. -/
theorem upsert_batch_duplicate_keys_rejected_witness :
    (upsert_dataframe emptyDb TableId.countries
      (schema TableId.countries).pk dfDupW).1 = emptyDb ∧
    ∃ e, (upsert_dataframe emptyDb TableId.countries
      (schema TableId.countries).pk dfDupW).2 = Except.error e :=
  upsert_batch_duplicate_keys_rejected emptyDb TableId.countries dfDupW
    [] [] [] [Value.text "AAA", Value.text "A"]
    [Value.text "AAA", Value.text "B"]
    (by rfl) (by decide) (by decide) (by decide)

/-- Claim C3 counterexample: with a primary-key column list that is not
the table's PRIMARY KEY (here iso2 on countries), the identical second
call is NOT a success with the same count: the second call's bulk UPDATE
rewrites both stored rows' country_id to the first staged match's value
and hits the real PRIMARY KEY constraint, raising instead. -/
theorem upsert_not_idempotent_for_arbitrary_pk_cols :
    (upsert_dataframe emptyDb TableId.countries ["iso2"] dfIso2W).2 =
      Except.ok 2 ∧
    (upsert_dataframe dbIso2W TableId.countries ["iso2"] dfIso2W).2 =
      Except.error "constraint failed during UPDATE on countries" :=
  ⟨by rfl, by rfl⟩

/-- A freshly inserted row is a fixed point of the UPDATE rewrite when the
rewriting staged row agrees with the inserting one on every update
column. -/
lemma updValues_fix_storedOf (updCols fcols : List String) (s1 s0 : Row)
    (hagree : ∀ c, memS updCols c = true →
      frameVal fcols s1 c = frameVal fcols s0 c)
    (hsub : ∀ c, memS updCols c = true → memS fcols c = true) :
    ∀ tcols : List ColumnSpec,
    updValues updCols fcols s1 tcols (storedOf tcols fcols s0) =
      storedOf tcols fcols s0 := by
  intro tcols
  induction tcols with
  | nil => rfl
  | cons col cs ih =>
    simp only [storedOf, List.map] at ih ⊢
    simp only [updValues, List.headD_cons, List.tail_cons]
    cases hm : memS updCols col.name with
    | false =>
      simp [hm, ih]
    | true =>
      rw [hsub col.name hm, hagree col.name hm, ih]
      simp

/-- Claim C3 (amended): merging the same well-formed batch twice with the
table's primary-key column list is idempotent: the second call succeeds,
returns the same count, and leaves the store exactly as after the first
call. -/
theorem upsert_idempotent (db : Database) (tid : TableId) (df : Frame)
    (db1 : Database) (n : Nat)
    (h : upsert_dataframe db tid (schema tid).pk df = (db1, Except.ok n))
    (hwf : ∀ r ∈ df.rows, ∀ c ∈ (schema tid).pk,
      frameVal df.cols r c ≠ Value.null) :
    upsert_dataframe db1 tid (schema tid).pk df = (db1, Except.ok n) := by
  have hpkne : (schema tid).pk.isEmpty = false := by
    cases hp : (schema tid).pk with
    | nil => exact absurd hp (schema_pk_ne_nil tid)
    | cons a l => rfl
  rcases upsert_ok_elim db tid (schema tid).pk df db1 n h with
    ⟨hemp, hdb, hn⟩ | ⟨hemp, hn, hguard, hbr⟩
  · rw [hdb, hn]
    unfold upsert_dataframe
    rw [if_pos hemp]
  · rcases hbr with ⟨hpkE, _⟩ | ⟨_, tbl, newT, hupd, hins, hdb2⟩
    · rw [hpkE] at hpkne
      exact absurd hpkne (by decide)
    · obtain ⟨hnewT, hinsChecks, huniqN⟩ :=
        runInsert_ok_elim db tid (schema tid).pk df.cols df.rows tbl newT
          hins
      obtain ⟨_, hcolsG, hpkG⟩ :=
        guardOk_elim tid (schema tid).pk df.cols hguard
      obtain ⟨hpkf, hpkh⟩ := hpkG (schema_pk_ne_nil tid)
      have hT1 : getTable db1 tid = newT := by
        rw [hdb2, getTable_setTable_self]
      have hnoDupN : noDupOn (schema tid).columns (schema tid).pk newT
          = true := ((Bool.and_eq_true _ _).mp huniqN).1
      have hcolstored : ∀ (s : Row), ∀ c ∈ (schema tid).pk,
          colVal (schema tid).columns
            (storedOf (schema tid).columns df.cols s) c =
          frameVal df.cols s c := fun s c hc =>
        colVal_storedOf_mem df.cols s (schema tid).columns c
          (hpkf c hc) (hpkh c hc)
      have hmatchself : ∀ s ∈ df.rows,
          pkMatchB (schema tid).columns df.cols (schema tid).pk
            (storedOf (schema tid).columns df.cols s) s = true := by
        intro s hs
        unfold pkMatchB
        rw [List.all_eq_true]
        intro c hc
        rw [hcolstored s c hc]
        exact sqlEq_self _ (hwf s hs c hc)
      have hcover : ∀ s ∈ df.rows, ∃ u ∈ newT,
          pkMatchB (schema tid).columns df.cols (schema tid).pk u s
            = true := by
        intro s hs
        cases hm : tbl.any (fun t =>
            pkMatchB (schema tid).columns df.cols (schema tid).pk t s) with
        | true =>
          obtain ⟨u, hu, hpu⟩ := List.any_eq_true.mp hm
          exact ⟨u, by rw [hnewT]; exact List.mem_append_left _ hu, hpu⟩
        | false =>
          have hsIn : s ∈ toInsert (schema tid).columns df.cols
              (schema tid).pk tbl df.rows := by
            unfold toInsert
            rw [List.mem_filter]
            exact ⟨hs, by rw [hm]; rfl⟩
          refine ⟨storedOf (schema tid).columns df.cols s, ?_,
            hmatchself s hs⟩
          rw [hnewT]
          exact List.mem_append_right _ (List.mem_map_of_mem _ hsIn)
      have htoIns2 : toInsert (schema tid).columns df.cols
          (schema tid).pk newT df.rows = [] := by
        unfold toInsert
        rw [List.filter_eq_nil_iff]
        intro s hs
        obtain ⟨u, hu, hpu⟩ := hcover s hs
        have hany : (newT.any (fun t => pkMatchB (schema tid).columns
            df.cols (schema tid).pk t s)) = true :=
          List.any_eq_true.mpr ⟨u, hu, hpu⟩
        simp [hany]
      have hemp2 : (df.rows.isEmpty || df.cols.isEmpty) = false := hemp
      rcases runUpdate_ok_elim db tid (schema tid).pk df.cols df.rows tbl
        hupd with ⟨hue, htbl⟩ | ⟨hue, htbl, hchanged, _, hinc⟩
      · -- update_cols is empty: both calls skip the UPDATE
        have hupd2 : runUpdate db1 tid (schema tid).pk df.cols df.rows =
            Except.ok newT := by
          unfold runUpdate
          dsimp only
          rw [if_pos hue, hT1]
        have hins2 : runInsert db1 tid (schema tid).pk df.cols df.rows
            newT = Except.ok (newT ++ []) := by
          have h0 : (toInsert (schema tid).columns df.cols
              (schema tid).pk newT df.rows).map
              (storedOf (schema tid).columns df.cols) = [] := by
            rw [htoIns2]
            rfl
          have hres := runInsert_ok_intro db1 tid (schema tid).pk df.cols
            df.rows newT
            (by rw [h0]; rfl)
            (by rw [h0, List.append_nil]; exact huniqN)
          rw [h0] at hres
          exact hres
        have htx2 : upsertTx db1 tid (schema tid).pk df =
            Except.ok db1 := by
          unfold upsertTx
          rw [if_pos hguard, if_neg (by simp [hpkne])]
          rw [hupd2]
          dsimp only
          rw [hins2]
          dsimp only
          rw [List.append_nil, ← hT1, setTable_getTable]
        unfold upsert_dataframe
        rw [if_neg (by simp [hemp2]), htx2, hn]
      · -- proper UPDATE branch
        have hfixtbl : ∀ w ∈ tbl,
            updRow (schema tid).columns df.cols (schema tid).pk df.rows w
              = w := by
          intro w hw
          rw [htbl] at hw
          rcases List.mem_map.mp hw with ⟨t, _, rfl⟩
          exact updRow_idem (schema tid).columns df.cols (schema tid).pk
            df.rows t
        have hfixins : ∀ v ∈ (toInsert (schema tid).columns df.cols
            (schema tid).pk tbl df.rows).map
            (storedOf (schema tid).columns df.cols),
            updRow (schema tid).columns df.cols (schema tid).pk df.rows v
              = v := by
          intro v hv
          rcases List.mem_map.mp hv with ⟨s0, hs0, rfl⟩
          have hs0un := hs0
          unfold toInsert at hs0un
          obtain ⟨hs0staged, hs0pred⟩ := List.mem_filter.mp hs0un
          have hsome : (firstMatch (schema tid).columns df.cols
              (schema tid).pk df.rows
              (storedOf (schema tid).columns df.cols s0)).isSome := by
            unfold firstMatch
            rw [List.find?_isSome]
            exact ⟨s0, hs0staged, hmatchself s0 hs0staged⟩
          obtain ⟨s1, hs1⟩ := Option.isSome_iff_exists.mp hsome
          have hps1 : pkMatchB (schema tid).columns df.cols
              (schema tid).pk (storedOf (schema tid).columns df.cols s0)
              s1 = true := List.find?_some hs1
          have hs1mem : s1 ∈ df.rows := List.mem_of_find?_eq_some hs1
          have hs1pred : (!(tbl.any (fun t => pkMatchB
              (schema tid).columns df.cols (schema tid).pk t s1)))
              = true := by
            cases hany : tbl.any (fun t => pkMatchB (schema tid).columns
                df.cols (schema tid).pk t s1) with
            | false => rfl
            | true =>
              exfalso
              obtain ⟨u, hu, hpu⟩ := List.any_eq_true.mp hany
              have hps0u : pkMatchB (schema tid).columns df.cols
                  (schema tid).pk u s0 = true := by
                unfold pkMatchB
                rw [List.all_eq_true]
                intro c hc
                have h1 := (List.all_eq_true.mp hpu) c hc
                have h2 := (List.all_eq_true.mp hps1) c hc
                rw [hcolstored s0 c hc] at h2
                obtain ⟨he2, hne2⟩ := (sqlEq_eq_true_iff _ _).mp h2
                obtain ⟨he1, hne1⟩ := (sqlEq_eq_true_iff _ _).mp h1
                rw [sqlEq_eq_true_iff]
                exact ⟨by rw [he1, ← he2], hne1⟩
              have hanys0 : tbl.any (fun t => pkMatchB
                  (schema tid).columns df.cols (schema tid).pk t s0)
                  = true := List.any_eq_true.mpr ⟨u, hu, hps0u⟩
              rw [hanys0] at hs0pred
              exact absurd hs0pred (by decide)
          have hs1toI : s1 ∈ toInsert (schema tid).columns df.cols
              (schema tid).pk tbl df.rows := by
            unfold toInsert
            rw [List.mem_filter]
            exact ⟨hs1mem, hs1pred⟩
          have hconf : conflictsOn (schema tid).columns (schema tid).pk
              (storedOf (schema tid).columns df.cols s0)
              (storedOf (schema tid).columns df.cols s1) = true := by
            unfold conflictsOn
            rw [List.all_eq_true]
            intro c hc
            have h2 := (List.all_eq_true.mp hps1) c hc
            rw [hcolstored s0 c hc] at h2
            obtain ⟨he2, hne2⟩ := (sqlEq_eq_true_iff _ _).mp h2
            rw [hcolstored s0 c hc, hcolstored s1 c hc, ← he2]
            exact sqlEq_self _ hne2
          have hmem0 : storedOf (schema tid).columns df.cols s0 ∈ newT := by
            rw [hnewT]
            exact List.mem_append_right _ (List.mem_map_of_mem _ hs0)
          have hmem1 : storedOf (schema tid).columns df.cols s1 ∈ newT := by
            rw [hnewT]
            exact List.mem_append_right _ (List.mem_map_of_mem _ hs1toI)
          have heqst : storedOf (schema tid).columns df.cols s0 =
              storedOf (schema tid).columns df.cols s1 :=
            eq_of_noDup_conflict (schema tid).columns (schema tid).pk newT
              hnoDupN _ _ hmem0 hmem1 hconf
          have hptw : ∀ c, memS (updateColsOf df.cols (schema tid).pk) c
              = true → frameVal df.cols s1 c = frameVal df.cols s0 c := by
            intro c hcm
            obtain ⟨hcf, _⟩ :=
              (memS_updateColsOf df.cols (schema tid).pk c).mp hcm
            have hhc : hasCol (schema tid).columns c = true :=
              hcolsG c ((memS_iff df.cols c).mp hcf)
            have hcv := congrArg
              (fun r => colVal (schema tid).columns r c) heqst
            dsimp only at hcv
            rw [colVal_storedOf_mem df.cols s0 (schema tid).columns c hcf
                hhc,
              colVal_storedOf_mem df.cols s1 (schema tid).columns c hcf
                hhc] at hcv
            exact hcv.symm
          have hrw : updRow (schema tid).columns df.cols (schema tid).pk
              df.rows (storedOf (schema tid).columns df.cols s0) =
              updValues (updateColsOf df.cols (schema tid).pk) df.cols s1
                (schema tid).columns
                (storedOf (schema tid).columns df.cols s0) := by
            simp [updRow, hue, hs1]
          rw [hrw]
          exact updValues_fix_storedOf (updateColsOf df.cols
            (schema tid).pk) df.cols s1 s0 hptw
            (fun c hcm =>
              ((memS_updateColsOf df.cols (schema tid).pk c).mp hcm).1)
            (schema tid).columns
        have hfix : ∀ w ∈ newT,
            updRow (schema tid).columns df.cols (schema tid).pk df.rows w
              = w := by
          intro w hw
          rw [hnewT] at hw
          rcases List.mem_append.mp hw with hw | hw
          · exact hfixtbl w hw
          · exact hfixins w hw
        have hfixmap : newT.map (updRow (schema tid).columns df.cols
            (schema tid).pk df.rows) = newT := by
          rw [List.map_congr_left hfix]
          simp
        have hchanged2 : (getTable db1 tid).all (fun t =>
            match firstMatch (schema tid).columns df.cols (schema tid).pk
              df.rows t with
            | none => true
            | some _ =>
              rowNotNullOk (schema tid).columns
                (updRow (schema tid).columns df.cols (schema tid).pk
                  df.rows t) &&
              rowFkOk db1 (schema tid).fks (schema tid).columns
                (updRow (schema tid).columns df.cols (schema tid).pk
                  df.rows t)) = true := by
          rw [hT1, List.all_eq_true]
          intro w hw
          cases hfmw : firstMatch (schema tid).columns df.cols
            (schema tid).pk df.rows w with
          | none => rfl
          | some s2 =>
            rw [hfix w hw]
            have hfkconv : rowFkOk db1 (schema tid).fks
                (schema tid).columns w = rowFkOk db (schema tid).fks
                (schema tid).columns w := by
              rw [hdb2]
              exact rowFkOk_setTable db tid newT (schema tid).fks
                (schema tid).columns w (no_self_fk tid)
            rw [hfkconv]
            have hwN := hw
            rw [hnewT] at hwN
            rcases List.mem_append.mp hwN with hwT | hwI
            · have hwT2 := hwT
              rw [htbl] at hwT2
              rcases List.mem_map.mp hwT2 with ⟨t, ht, rfl⟩
              have hfmt : firstMatch (schema tid).columns df.cols
                  (schema tid).pk df.rows t = some s2 := by
                rw [← firstMatch_updRow (schema tid).columns df.cols
                  (schema tid).pk df.rows t]
                exact hfmw
              obtain ⟨hnn2, hfk2⟩ := changedOk_elim db tid
                (schema tid).pk df.cols df.rows hchanged t ht s2 hfmt
              dsimp only
              rw [hnn2, hfk2]
              rfl
            · have h1 := (List.all_eq_true.mp hinsChecks) w hwI
              exact h1
        have huniq2 : uniquesOk (schema tid)
            ((getTable db1 tid).map (updRow (schema tid).columns df.cols
              (schema tid).pk df.rows)) = true := by
          rw [hT1, hfixmap]
          exact huniqN
        have hinc2 : (!incomingNeeded tid (updateColsOf df.cols
            (schema tid).pk) || incomingOk db1 tid
            ((getTable db1 tid).map (updRow (schema tid).columns df.cols
              (schema tid).pk df.rows))) = true := by
          cases hneed : incomingNeeded tid
            (updateColsOf df.cols (schema tid).pk) with
          | false => rfl
          | true =>
            rw [hneed] at hinc
            have hincok : incomingOk db tid tbl = true := by
              simpa using hinc
            rw [hT1, hfixmap]
            simp only [Bool.not_true, Bool.false_or]
            rw [incomingOk_iff]
            intro ct fk hfk hpar r hr
            have hctne : ct ≠ tid := by
              intro hcteq
              subst hcteq
              exact absurd hpar (no_self_fk ct fk hfk)
            rw [hdb2, getTable_setTable_ne db tid ct newT hctne] at hr
            rcases (incomingOk_iff db tid tbl).mp hincok ct fk hfk hpar r
              hr with hnull | ⟨p, hp, hsql⟩
            · exact Or.inl hnull
            · right
              refine ⟨p, ?_, hsql⟩
              rw [hnewT]
              exact List.mem_append_left _ hp
        have hupd2 : runUpdate db1 tid (schema tid).pk df.cols df.rows =
            Except.ok newT := by
          have hres := runUpdate_ok_intro db1 tid (schema tid).pk df.cols
            df.rows hue hchanged2 huniq2 hinc2
          rw [hT1, hfixmap] at hres
          exact hres
        have hins2 : runInsert db1 tid (schema tid).pk df.cols df.rows
            newT = Except.ok (newT ++ []) := by
          have h0 : (toInsert (schema tid).columns df.cols
              (schema tid).pk newT df.rows).map
              (storedOf (schema tid).columns df.cols) = [] := by
            rw [htoIns2]
            rfl
          have hres := runInsert_ok_intro db1 tid (schema tid).pk df.cols
            df.rows newT
            (by rw [h0]; rfl)
            (by rw [h0, List.append_nil]; exact huniqN)
          rw [h0] at hres
          exact hres
        have htx2 : upsertTx db1 tid (schema tid).pk df =
            Except.ok db1 := by
          unfold upsertTx
          rw [if_pos hguard, if_neg (by simp [hpkne])]
          rw [hupd2]
          dsimp only
          rw [hins2]
          dsimp only
          rw [List.append_nil, ← hT1, setTable_getTable]
        unfold upsert_dataframe
        rw [if_neg (by simp [hemp2]), htx2, hn]

/-- Witness for the amended C3: the repeated merge returns the same count
and the same store. -/
theorem upsert_idempotent_witness :
    upsert_dataframe dbCW TableId.countries (schema TableId.countries).pk
      dfCW = (dbCW, Except.ok 2) :=
  upsert_idempotent emptyDb TableId.countries dfCW dbCW 2 (by rfl)
    (by decide)

/-- Claim C7 counterexample: the payload built by "|".join is ambiguous -
the two distinct field tuples ("a","b") and ("a|b",) produce the same
payload string, so the concatenation step is not injective and stable_id
can collide on unrelated inputs whose fields contain the separator. -/
theorem sepJoin_not_injective :
    sepJoin [['a'], ['b']] = sepJoin [['a', '|', 'b']] ∧
    ([['a'], ['b']] : List (List Char)) ≠ [['a', '|', 'b']] :=
  ⟨rfl, by decide⟩

lemma splitFirstPipe : ∀ (a : List Char) (b : List Char) (u v : List Char),
    (∀ c ∈ a, c ≠ '|') → (∀ c ∈ b, c ≠ '|') →
    a ++ '|' :: u = b ++ '|' :: v → a = b ∧ u = v := by
  intro a
  induction a with
  | nil =>
    intro b u v _ hb heq
    cases b with
    | nil =>
      rw [List.nil_append, List.nil_append] at heq
      exact ⟨rfl, (List.cons.injEq _ _ _ _).mp heq |>.2⟩
    | cons x xs =>
      rw [List.nil_append, List.cons_append] at heq
      have hx := ((List.cons.injEq _ _ _ _).mp heq).1
      exact absurd hx.symm (hb x (List.mem_cons_self x xs))
  | cons c cs ih =>
    intro b u v ha hb heq
    cases b with
    | nil =>
      rw [List.cons_append, List.nil_append] at heq
      have hc := ((List.cons.injEq _ _ _ _).mp heq).1
      exact absurd hc (ha c (List.mem_cons_self c cs))
    | cons d ds =>
      rw [List.cons_append, List.cons_append] at heq
      obtain ⟨hcd, hrest⟩ := (List.cons.injEq _ _ _ _).mp heq
      obtain ⟨h1, h2⟩ := ih ds u v
        (fun x hx => ha x (List.mem_cons_of_mem c hx))
        (fun x hx => hb x (List.mem_cons_of_mem d hx)) hrest
      exact ⟨by rw [hcd, h1], h2⟩

/-- Claim C7 (amended): the payload concatenation IS injective when
restricted to non-empty field tuples none of whose string forms contains
the separator character. -/
theorem sepJoin_injective_on_pipe_free (xs : List (List Char)) :
    ∀ ys : List (List Char),
    (∀ s ∈ xs, ∀ c ∈ s, c ≠ '|') → (∀ s ∈ ys, ∀ c ∈ s, c ≠ '|') →
    xs ≠ [] → ys ≠ [] → sepJoin xs = sepJoin ys → xs = ys := by
  induction xs with
  | nil => intro ys _ _ hnex _ _; exact absurd rfl hnex
  | cons a as ih =>
    intro ys hxs hys _ hney h
    cases ys with
    | nil => exact absurd rfl hney
    | cons b bs =>
      cases as with
      | nil =>
        cases bs with
        | nil =>
          rw [show sepJoin [a] = a from rfl,
            show sepJoin [b] = b from rfl] at h
          rw [h]
        | cons b2 bs2 =>
          exfalso
          rw [show sepJoin [a] = a from rfl,
            show sepJoin (b :: b2 :: bs2) =
              b ++ '|' :: sepJoin (b2 :: bs2) from rfl] at h
          have hmem : '|' ∈ a := by
            rw [h]
            exact List.mem_append_right b (List.mem_cons_self _ _)
          exact hxs a (List.mem_cons_self a []) '|' hmem rfl
      | cons a2 as2 =>
        cases bs with
        | nil =>
          exfalso
          rw [show sepJoin [b] = b from rfl,
            show sepJoin (a :: a2 :: as2) =
              a ++ '|' :: sepJoin (a2 :: as2) from rfl] at h
          have hmem : '|' ∈ b := by
            rw [← h]
            exact List.mem_append_right a (List.mem_cons_self _ _)
          exact hys b (List.mem_cons_self b []) '|' hmem rfl
        | cons b2 bs2 =>
          rw [show sepJoin (a :: a2 :: as2) =
              a ++ '|' :: sepJoin (a2 :: as2) from rfl,
            show sepJoin (b :: b2 :: bs2) =
              b ++ '|' :: sepJoin (b2 :: bs2) from rfl] at h
          obtain ⟨hab, hrest⟩ := splitFirstPipe a b _ _
            (hxs a (List.mem_cons_self a _))
            (hys b (List.mem_cons_self b _)) h
          have htail := ih (b2 :: bs2)
            (fun s hs => hxs s (List.mem_cons_of_mem a hs))
            (fun s hs => hys s (List.mem_cons_of_mem b hs))
            (by simp) (by simp) hrest
          rw [hab, htail]

/-- Witness for the amended C7: the injectivity theorem applied to two
pipe-free tuples with equal payloads. -/
theorem sepJoin_injective_on_pipe_free_witness :
    ([['a', 'b'], ['c']] : List (List Char)) = [['a', 'b'], ['c']] :=
  sepJoin_injective_on_pipe_free [['a', 'b'], ['c']] [['a', 'b'], ['c']]
    (by decide) (by decide) (by decide) (by decide) rfl

/-- Claim C8 counterexample: on "a!" the code returns "a" (it strips the
trailing dash) while the claim's description yields "a-". -/
theorem slugify_ne_spec_literal :
    slugify "a!".data = ['a'] ∧ slugifySpecLiteral "a!".data = ['a', '-'] ∧
    (['a'] : List Char) ≠ ['a', '-'] :=
  ⟨by decide, by decide, by decide⟩

lemma subRunsAux_cons (b : Bool) (c : Char) (cs : List Char) :
    subRunsAux b (c :: cs) =
      if isAlnum c then c :: subRunsAux false cs
      else if b then subRunsAux true cs
      else '-' :: subRunsAux true cs := by
  cases b <;> rfl

lemma subRunsAux_true_nonalnum (w : List Char)
    (hw : ∀ c ∈ w, isAlnum c = false) : subRunsAux true w = [] := by
  induction w with
  | nil => rfl
  | cons c cs ih =>
    rw [subRunsAux_cons, hw c (List.mem_cons_self c cs)]
    simp only [Bool.false_eq_true, if_false, if_pos]
    exact ih (fun x hx => hw x (List.mem_cons_of_mem _ hx))

lemma stripEnds_cons_of_head (p : Char → Bool) (a : Char) (x : List Char)
    (h : p a = true) : stripEnds p (a :: x) = stripEnds p x := by
  simp [stripEnds, List.dropWhile_cons, h]

lemma subRunsAux_tf (m : List Char) :
    stripEnds (fun c => c == '-') (subRunsAux true m) =
      stripEnds (fun c => c == '-') (subRunsAux false m) := by
  cases m with
  | nil => rfl
  | cons c cs =>
    cases hc : isAlnum c with
    | true => simp [subRunsAux_cons, hc]
    | false =>
      rw [subRunsAux_cons, subRunsAux_cons, hc]
      simp only [Bool.false_eq_true, if_false, if_pos]
      rw [stripEnds_cons_of_head (fun c => c == '-') '-'
        (subRunsAux true cs) (by decide)]

lemma subRunsAux_true_append (w : List Char)
    (hw : ∀ c ∈ w, isAlnum c = false) :
    ∀ m : List Char, subRunsAux true (w ++ m) = subRunsAux true m := by
  induction w with
  | nil => intro m; rfl
  | cons c cs ih =>
    intro m
    rw [List.cons_append, subRunsAux_cons,
      hw c (List.mem_cons_self c cs)]
    simp only [Bool.false_eq_true, if_false, if_pos]
    exact ih (fun x hx => hw x (List.mem_cons_of_mem _ hx)) m

lemma stripDash_lead (w : List Char) (hw : ∀ c ∈ w, isAlnum c = false) :
    ∀ m : List Char,
    stripEnds (fun c => c == '-') (subRunsAux false (w ++ m)) =
      stripEnds (fun c => c == '-') (subRunsAux false m) := by
  cases w with
  | nil => intro m; rfl
  | cons c cs =>
    intro m
    rw [List.cons_append, subRunsAux_cons,
      hw c (List.mem_cons_self c cs)]
    simp only [Bool.false_eq_true, if_false]
    rw [stripEnds_cons_of_head (fun c => c == '-') '-' _ (by decide)]
    rw [subRunsAux_true_append cs
      (fun x hx => hw x (List.mem_cons_of_mem _ hx)) m]
    exact subRunsAux_tf m

lemma subRunsAux_append_nonalnum (w : List Char)
    (hw : ∀ c ∈ w, isAlnum c = false) :
    ∀ (m : List Char) (b : Bool),
    subRunsAux b (m ++ w) = subRunsAux b m ∨
    subRunsAux b (m ++ w) = subRunsAux b m ++ ['-'] := by
  intro m
  induction m with
  | nil =>
    intro b
    cases b with
    | true =>
      left
      rw [List.nil_append]
      exact subRunsAux_true_nonalnum w hw
    | false =>
      cases w with
      | nil => left; rfl
      | cons c cs =>
        right
        rw [List.nil_append, subRunsAux_cons,
          hw c (List.mem_cons_self c cs)]
        simp only [Bool.false_eq_true, if_false]
        rw [subRunsAux_true_nonalnum cs
          (fun x hx => hw x (List.mem_cons_of_mem _ hx))]
        rfl
  | cons c cs ih =>
    intro b
    rw [List.cons_append]
    cases hc : isAlnum c with
    | true =>
      rw [subRunsAux_cons, subRunsAux_cons, hc]
      simp only [if_pos]
      rcases ih false with hcase | hcase
      · left; rw [hcase]
      · right; rw [hcase]; rfl
    | false =>
      cases b with
      | true =>
        rw [subRunsAux_cons, subRunsAux_cons, hc]
        simp only [Bool.false_eq_true, if_false, if_pos]
        exact ih true
      | false =>
        rw [subRunsAux_cons, subRunsAux_cons, hc]
        simp only [Bool.false_eq_true, if_false]
        rcases ih true with hcase | hcase
        · left; rw [hcase]
        · right; rw [hcase]; rfl

lemma stripEnds_append_of_last (p : Char → Bool) (a : Char)
    (h : p a = true) :
    ∀ x : List Char, stripEnds p (x ++ [a]) = stripEnds p x := by
  intro x
  induction x with
  | nil => simp [stripEnds, List.dropWhile, h]
  | cons b x2 ih =>
    cases hpb : p b with
    | true =>
      rw [List.cons_append, stripEnds_cons_of_head p b _ hpb,
        stripEnds_cons_of_head p b _ hpb]
      exact ih
    | false =>
      show stripEnds p (b :: (x2 ++ [a])) = stripEnds p (b :: x2)
      unfold stripEnds
      rw [List.dropWhile_cons, List.dropWhile_cons, hpb]
      simp only [Bool.false_eq_true, if_false]
      rw [List.reverse_cons, List.reverse_cons, List.reverse_append]
      rw [show ([a].reverse ++ x2.reverse) ++ [b] =
        a :: (x2.reverse ++ [b]) from by simp]
      rw [List.dropWhile_cons, h]
      simp

lemma isSpace_toLower_not_alnum (c : Char) (h : isSpace c = true) :
    isAlnum c.toLower = false := by
  unfold isSpace at h
  simp only [Bool.or_eq_true, beq_iff_eq] at h
  rcases h with ((((h | h) | h) | h) | h) | h <;> (subst h; decide)

/-- Core lemma for C8: stripping surrounding whitespace before lower-case
and run-collapse changes nothing once surrounding dashes are stripped. -/
lemma slug_core_strip (l : List Char) :
    stripEnds (fun c => c == '-')
      (subRunsAux false ((stripEnds isSpace l).map Char.toLower)) =
    stripEnds (fun c => c == '-')
      (subRunsAux false (l.map Char.toLower)) := by
  have hdtrail : ∀ z : List Char,
      stripEnds (fun c => c == '-')
        (subRunsAux false (((z.reverse.dropWhile isSpace).reverse).map
          Char.toLower)) =
      stripEnds (fun c => c == '-')
        (subRunsAux false (z.map Char.toLower)) := by
    intro z
    have hz : z = (z.reverse.dropWhile isSpace).reverse ++
        (z.reverse.takeWhile isSpace).reverse := by
      rw [← List.reverse_append, List.takeWhile_append_dropWhile,
        List.reverse_reverse]
    have hw : ∀ c ∈ ((z.reverse.takeWhile isSpace).reverse).map
        Char.toLower, isAlnum c = false := by
      intro c hc
      rcases List.mem_map.mp hc with ⟨d, hd, rfl⟩
      rw [List.mem_reverse] at hd
      exact isSpace_toLower_not_alnum d (List.mem_takeWhile_imp hd)
    conv_rhs => rw [hz]
    rw [List.map_append]
    rcases subRunsAux_append_nonalnum _ hw
      (((z.reverse.dropWhile isSpace).reverse).map Char.toLower) false
      with hcase | hcase
    · rw [hcase]
    · rw [hcase,
        stripEnds_append_of_last (fun c => c == '-') '-' (by decide)]
  have hdlead : ∀ z : List Char,
      stripEnds (fun c => c == '-')
        (subRunsAux false ((z.dropWhile isSpace).map Char.toLower)) =
      stripEnds (fun c => c == '-')
        (subRunsAux false (z.map Char.toLower)) := by
    intro z
    have hz : z = z.takeWhile isSpace ++ z.dropWhile isSpace :=
      (List.takeWhile_append_dropWhile isSpace z).symm
    have hw : ∀ c ∈ (z.takeWhile isSpace).map Char.toLower,
        isAlnum c = false := by
      intro c hc
      rcases List.mem_map.mp hc with ⟨d, hd, rfl⟩
      exact isSpace_toLower_not_alnum d (List.mem_takeWhile_imp hd)
    conv_rhs => rw [hz]
    rw [List.map_append]
    rw [stripDash_lead _ hw]
  show stripEnds (fun c => c == '-') (subRunsAux false
      ((((l.dropWhile isSpace).reverse.dropWhile isSpace).reverse).map
        Char.toLower)) = _
  rw [hdtrail (l.dropWhile isSpace), hdlead l]

/-- Claim C8 (amended): slugify returns the input lower-cased with every
maximal run of non-alphanumeric characters replaced by one "-", then with
leading and trailing "-" removed, and the literal "unknown" when that
leaves nothing (empty or all-punctuation input); distinct all-punctuation
inputs such as "!" and "?" therefore both slug to "unknown". -/
theorem slugify_characterized :
    (∀ l : List Char, slugify l =
      (if (stripEnds (fun c => c == '-')
            (subRuns (l.map Char.toLower))).isEmpty
       then "unknown".data
       else stripEnds (fun c => c == '-') (subRuns (l.map Char.toLower)))) ∧
    slugify "!".data = "unknown".data ∧
    slugify "?".data = "unknown".data ∧ "!".data ≠ "?".data := by
  refine ⟨?_, by decide, by decide, by decide⟩
  intro l
  show (if (stripEnds (fun c => c == '-')
        (subRunsAux false ((stripEnds isSpace l).map
          Char.toLower))).isEmpty
      then "unknown".data
      else stripEnds (fun c => c == '-')
        (subRunsAux false ((stripEnds isSpace l).map Char.toLower))) = _
  rw [slug_core_strip l]
  rfl

end DataSport
